import Mathlib

/-!
# ccapi-k8s-operator: reconciliation and provisioning protocol

A shallow embedding of the operator's controllers (`controllers/*.go`) and of its
CockroachDB Cloud client (`controllers/crdb/*.go`).

Conventions of the embedding:

* a Go `error` result is an `Option GoError` (`none` is `nil`); a Go `(value, error)`
  result is an `Except GoError value`;
* a Go `map[string]string` (or `map[string][]byte`) is a `GoMap`, an association list
  with unique keys that keeps insertion order;
* everything outside the repository that a function talks to (the Kubernetes API
  server, the cloud REST API behind the `ClusterService` interface, the HTTP
  transport, the clock, the random sources) is an explicit argument that fixes the
  answer of every call, and every reconcile returns the list of calls it made
  (`Event`s, in program order) next to its Go results;
* logging is not modelled.
-/

/-! ## Go runtime values -/

/-- A Go `error` value: its message and whether `apierrors.IsNotFound` holds of it. -/
structure GoError where
  msg : String
  notFound : Bool := false
deriving DecidableEq, Repr

/-- The call `errors.New(msg)`. -/
def errorsNew (msg : String) : GoError := { msg := msg }

/-- A Go map with string keys. -/
abbrev GoMap := List (String × String)

namespace GoMap

/-- The assignment `m[k] = v`: overwrite the entry of `k`, or add one. -/
def set : GoMap → String → String → GoMap
  | [], k, v => [(k, v)]
  | (k', v') :: m, k, v => if k' = k then (k, v) :: m else (k', v') :: set m k v

/-- The index expression `m[k]`: the stored value, or the zero value `""`. -/
def get (m : GoMap) (k : String) : String := (m.lookup k).getD ""

/-- The keys of the map. -/
def keys (m : GoMap) : List String := m.map Prod.fst

/-- A map literal: the entries are assigned in the order written. -/
def ofList (kvs : List (String × String)) : GoMap :=
  kvs.foldl (fun m kv => set m kv.1 kv.2) []

end GoMap

/-! ## Kubernetes API types (`metav1`, `corev1`, `ctrl`) -/

/-- The constant `metav1.ConditionTrue`. -/
def ConditionTrue : String := "True"

/-- The constant `metav1.ConditionFalse`. -/
def ConditionFalse : String := "False"

/-- A `metav1.Condition` (fields read or written by the controllers; the transition
time and observed generation are left out). -/
structure Condition where
  Type_ : String
  Status : String
  Reason : String := ""
  Message : String := ""
deriving DecidableEq, Repr

/-- The library function `apimeta.SetStatusCondition`: the first condition of the same
type is updated in place, and when there is none the new condition is appended. -/
def SetStatusCondition : List Condition → Condition → List Condition
  | [], newCondition => [newCondition]
  | c :: cs, newCondition =>
    if c.Type_ = newCondition.Type_ then
      { c with Status := newCondition.Status, Reason := newCondition.Reason,
               Message := newCondition.Message } :: cs
    else c :: SetStatusCondition cs newCondition

/-- Whether the list holds a condition of the given type with the given status. -/
def hasCondition (conds : List Condition) (type status : String) : Bool :=
  conds.any (fun c => c.Type_ == type && c.Status == status)

/-- A `types.NamespacedName` (also `client.ObjectKey`). -/
structure NamespacedName where
  Namespace : String := ""
  Name : String := ""
deriving DecidableEq, Repr

/-- A `corev1.LocalObjectReference`. -/
structure LocalObjectReference where
  Name : String
deriving DecidableEq, Repr

/-- A `metav1.OwnerReference`. -/
structure OwnerReference where
  UID : String
  APIVersion : String
  BlockOwnerDeletion : Option Bool
  Controller : Option Bool
  Kind : String
  Name : String
deriving DecidableEq, Repr

/-- A `metav1.ObjectMeta` (the fields the controllers use). -/
structure ObjectMeta where
  Name : String := ""
  GenerateName : String := ""
  Namespace : String := ""
  UID : String := ""
  Labels : GoMap := []
  OwnerReferences : List OwnerReference := []
deriving DecidableEq, Repr

/-- A `corev1.Secret`. -/
structure Secret where
  Kind : String := ""
  APIVersion : String := ""
  meta : ObjectMeta := {}
  Type_ : String := ""
  Data : GoMap := []
deriving DecidableEq, Repr

/-- A `corev1.ConfigMap`. -/
structure ConfigMap where
  Kind : String := ""
  APIVersion : String := ""
  meta : ObjectMeta := {}
  Data : GoMap := []
deriving DecidableEq, Repr

/-- A `ctrl.Result`; `RequeueAfter` is a `time.Duration`, in nanoseconds. -/
structure Result where
  Requeue : Bool := false
  RequeueAfter : Int := 0
deriving DecidableEq, Repr

/-! ## Resource types (`dbaasv1alpha1`, `api/v1alpha1`) -/

/-- A `dbaasv1alpha1.Instance`. -/
structure Instance where
  InstanceID : String
  Name : String := ""
  InstanceInfo : GoMap := []
deriving DecidableEq, Repr

/-- The spec of a Connection (`dbaasv1alpha1.DBaaSConnectionSpec`). -/
structure DBaaSConnectionSpec where
  InventoryRef : NamespacedName := {}
  InstanceID : String := ""
deriving DecidableEq, Repr

/-- The status of a Connection (`dbaasv1alpha1.DBaaSConnectionStatus`). -/
structure DBaaSConnectionStatus where
  Conditions : List Condition := []
  CredentialsRef : Option LocalObjectReference := none
  ConnectionInfoRef : Option LocalObjectReference := none
deriving DecidableEq, Repr

/-- The resource `v1alpha1.CrdbDBaaSConnection`. -/
structure CrdbDBaaSConnection where
  Kind : String := ""
  APIVersion : String := ""
  meta : ObjectMeta := {}
  Spec : DBaaSConnectionSpec := {}
  Status : DBaaSConnectionStatus := {}
deriving DecidableEq, Repr

/-- The spec of an Inventory, as the controllers read it. -/
structure DBaaSInventorySpec where
  CredentialsRef : NamespacedName := {}
deriving DecidableEq, Repr

/-- The status of an Inventory, as the controllers read and write it. -/
structure DBaaSInventoryStatus where
  Conditions : List Condition := []
  Instances : List Instance := []
deriving DecidableEq, Repr

/-- The resource `v1alpha1.CrdbDBaaSInventory`. -/
structure CrdbDBaaSInventory where
  Kind : String := ""
  APIVersion : String := ""
  meta : ObjectMeta := {}
  Spec : DBaaSInventorySpec := {}
  Status : DBaaSInventoryStatus := {}
deriving DecidableEq, Repr

/-! ## `controllers/crdb/models.go` -/

namespace crdb

/-- A Go `time.Time`, held as the text its `String` method renders; the default is the
text of the zero value. -/
structure GoTime where
  text : String := "0001-01-01 00:00:00 +0000 UTC"
deriving DecidableEq, Repr

structure User where
  Name : String := ""
deriving DecidableEq, Repr

structure SqlUser where
  User : User := {}
  Password : String := ""
deriving DecidableEq, Repr

structure SqlUserName where
  Name : String := ""
deriving DecidableEq, Repr

structure SqlUserResponse where
  SqlUserName : List SqlUserName := []
deriving DecidableEq, Repr

structure ClusterServerlessInfo where
  Regions : List String := []
  SpendLimit : Int := 0
  TenantName : String := ""
deriving DecidableEq, Repr

structure Cluster where
  ID : String := ""
  Name : String := ""
  CockroachVersion : String := ""
  Plan : String := ""
  CloudProvider : String := ""
  State : String := ""
  CreatorId : String := ""
  LongRunningOperationStatus : String := ""
  Serverless : ClusterServerlessInfo := {}
  CreatedAt : GoTime := {}
  UpdatedAt : GoTime := {}
  DeletedAt : GoTime := {}
deriving DecidableEq, Repr

structure ClustersResponse where
  Cluster : List Cluster := []
deriving DecidableEq, Repr

structure Region where
  Name : String := ""
  SqlDns : String := ""
deriving DecidableEq, Repr

structure ClusterDetails where
  Cluster : Cluster := {}
  Regions : List Region := []
deriving DecidableEq, Repr

structure Credential where
  OrgID : String := ""
  APIKey : String := ""
deriving DecidableEq, Repr

structure ClusterCertificate where
  FileName : String := ""
  CaCertificate : String := ""
deriving DecidableEq, Repr

end crdb

/-! ## The interface `ClusterService` of `controllers/crdb/client.go` -/

namespace crdb

/-- The interface `ClusterService` as a method table over the type `σ` of
the objects that implement it. A method takes the object and answers with the object
as the call left it next to the Go results (the `*http.Response` result, which no
caller reads, is left out); `SetCredential` has no Go result. -/
structure ClusterService (σ : Type) where
  ListClusters : σ → σ × Except GoError (List Cluster)
  GetCluster : σ → String → σ × Except GoError ClusterDetails
  ListUsers : σ → String → σ × Except GoError (List SqlUser)
  CreateUser : σ → String → σ × Except GoError SqlUser
  DeleteUser : σ → String → String → σ × Option GoError
  GetClusterCertificate : σ → String → σ × Except GoError ClusterCertificate
  SetCredential : σ → Credential → σ

end crdb

/-! ## `controllers/crdb/util.go` -/

namespace crdb

def digits : String := "0123456789"
def specials : String := "~=+%^*/()[]\x7b\x7d/!@#$?|"
def all : String := "ABCDEFGHIJKLMNOPQRSTUVWXYZabcdefghijklmnopqrstuvwxyz" ++ digits ++ specials

/-- The function `getRandInt(s)`: the `call`-th draw from `crypto/rand`, which the
library takes from `[0, s)`. The draws of a run are the function `rnd`. -/
def getRandInt (rnd : Nat → Nat) (call : Nat) (_s : Nat) : Nat := rnd call

/-- The swap callback `buf[i], buf[j] = buf[j], buf[i]`; `none` is the index-out-of-range
panic. -/
def swap (buf : List Char) (i j : Nat) : Option (List Char) :=
  match buf[i]?, buf[j]? with
  | some bi, some bj => some ((buf.set i bj).set j bi)
  | _, _ => none

/-- The loop of the library function `rand.Shuffle(n, swap)`:
`for i := n - 1; i > 0; i-- { j := draw below i + 1; swap(i, j) }`, started at `i`.
The draw of step `i` is `shuf i`. -/
def shuffleLoop (shuf : Nat → Nat) : Nat → List Char → Option (List Char)
  | 0, buf => some buf
  | i + 1, buf =>
    match swap buf (i + 1) (shuf (i + 1)) with
    | none => none
    | some buf => shuffleLoop shuf i buf

/-- The library function `rand.Shuffle(n, swap)` with the swap callback of
`generatePassword`. -/
def Shuffle (shuf : Nat → Nat) (n : Nat) (buf : List Char) : Option (List Char) :=
  shuffleLoop shuf (n - 1) buf

/-- The loop `for i := 2; i < length; i++ { buf[i] = all[getRandInt(len(all))] }`,
started at `i` with `fuel` iterations left; `none` is the index-out-of-range panic. -/
def fillLoop (rnd : Nat → Nat) : Nat → Nat → List Char → Option (List Char)
  | 0, _, buf => some buf
  | fuel + 1, i, buf =>
    match all.data[getRandInt rnd i all.length]? with
    | none => none
    | some b => fillLoop rnd fuel (i + 1) (buf.set i b)

/-- The function `generatePassword`. The bytes of the buffer are ASCII characters;
`rnd` gives the draws of `getRandInt` in call order and `shuf` those of `rand.Shuffle`;
`none` is a panic. -/
def generatePassword (rnd : Nat → Nat) (shuf : Nat → Nat) : Option String :=
  let length := 12
  let buf := List.replicate length (Char.ofNat 0)
  match digits.data[getRandInt rnd 0 digits.length]? with
  | none => none
  | some b0 =>
  let buf := buf.set 0 b0
  match specials.data[getRandInt rnd 1 specials.length]? with
  | none => none
  | some b1 =>
  let buf := buf.set 1 b1
  match fillLoop rnd (length - 2) 2 buf with
  | none => none
  | some buf =>
  match Shuffle shuf buf.length buf with
  | none => none
  | some buf => some (String.mk buf)

/-! ## `controllers/crdb/client.go` -/

/-- The request builder `gorequest.SuperAgent` (the fields the client sets); `Data` is
the struct handed to `Send`. -/
structure SuperAgent where
  Url : String := ""
  Method : String := ""
  Header : GoMap := []
  Data : Option SqlUser := none
deriving DecidableEq, Repr

namespace SuperAgent

/-- The library call `gorequest.New()`. -/
def New : SuperAgent := {}

/-- The library method `ClearSuperAgent`, which every `Get`, `Post` and `Delete` runs
first: the URL, method, headers and data of the previous request are dropped. -/
def ClearSuperAgent (_s : SuperAgent) : SuperAgent := {}

def Get (s : SuperAgent) (targetUrl : String) : SuperAgent :=
  { s.ClearSuperAgent with Method := "GET", Url := targetUrl }

def Post (s : SuperAgent) (targetUrl : String) : SuperAgent :=
  { s.ClearSuperAgent with Method := "POST", Url := targetUrl }

def Delete (s : SuperAgent) (targetUrl : String) : SuperAgent :=
  { s.ClearSuperAgent with Method := "DELETE", Url := targetUrl }

/-- The library method `Set(param, value)`, that is `s.Header.Set(param, value)`. The
header names the client sets are in canonical form already. -/
def Set (s : SuperAgent) (param value : String) : SuperAgent :=
  { s with Header := s.Header.set param value }

def Send (s : SuperAgent) (content : SqlUser) : SuperAgent :=
  { s with Data := some content }

end SuperAgent

/-- What the transport answers to a dispatched request: the status code of the
response, the body and the transport errors. -/
structure HttpResult where
  StatusCode : Int := 0
  body : String := ""
  errs : List GoError := []
deriving DecidableEq, Repr

/-- The library calls of the client: the dispatch of the request a `SuperAgent` holds
(`End`, and `EndStruct`, which also decodes the body into the given struct),
`fmt.Errorf` with one operand, the clock (`time.Now().UnixNano()`) and the draws of the
two random sources. -/
structure Runtime where
  End : SuperAgent → HttpResult
  EndStructClusters : SuperAgent → HttpResult × ClustersResponse
  EndStructDetails : SuperAgent → HttpResult × ClusterDetails
  EndStructUsers : SuperAgent → HttpResult × SqlUserResponse
  Errorf : String → GoError → GoError
  now : Int
  rnd : Nat → Nat
  shuf : Nat → Nat

/-- The constant `http.StatusOK`. -/
def StatusOK : Int := 200

/-- The format `crdbUrlPrefix`, filled in with the organization ID. -/
def crdbUrlPrefix (orgID : String) : String :=
  "https://cockroachlabs.cloud/api/v1/orgs/" ++ orgID ++ "/clusters"

/-- The format `clusterCertUrl`, filled in with the cluster ID. -/
def clusterCertUrl (clusterID : String) : String :=
  "https://cockroachlabs.cloud/clusters/" ++ clusterID ++ "/cert"

/-- The struct `ClusterServiceCloud`: `cred` is the credential the field points to and
`req` the `SuperAgent` behind the pointer field. -/
structure ClusterServiceCloud where
  cred : Credential
  req : SuperAgent
deriving DecidableEq, Repr

/-- What a method of the client leaves behind: the client the caller holds after the
call, the request that was dispatched, and the Go results (the `*http.Response`
result, which no caller reads, is left out). -/
structure Call (α : Type) where
  self : ClusterServiceCloud
  sent : SuperAgent
  value : Option α
  err : Option GoError

def wrapErrors (Errorf : String → GoError → GoError) (errs : List GoError) : GoError :=
  errs.foldl (fun allErrs e => Errorf (allErrs.msg ++ " %w") e) (errorsNew "")

namespace ClusterServiceCloud

/-- Every method of the client has the value receiver `(c ClusterServiceCloud)`: it
runs on a copy `c` of the caller's struct `self`. After the call the caller's struct
has its own fields; what the copy shares with it is the `SuperAgent` behind the
pointer `req`, which is as the method left it. -/
def afterCall (self c : ClusterServiceCloud) : ClusterServiceCloud :=
  { self with req := c.req }

def setAuthHeader (self : ClusterServiceCloud) : ClusterServiceCloud :=
  let c := self
  let c := { c with req := c.req.Set "Accept" "application/json" }
  let c := { c with req := c.req.Set "Authorization" ("Bearer " ++ c.cred.APIKey) }
  afterCall self c

def SetCredential (self : ClusterServiceCloud) (cred : Credential) : ClusterServiceCloud :=
  let c := self
  let c := { c with cred := cred }
  afterCall self c

def ListClusters (rt : Runtime) (self : ClusterServiceCloud) : Call (List Cluster) :=
  let c := self
  let url := crdbUrlPrefix c.cred.OrgID ++ "?active=true"
  let c := { c with req := c.req.Get url }
  let c := c.setAuthHeader
  match rt.EndStructClusters c.req with
  | (r, cluResp) =>
    if r.errs.length > 0 then ⟨afterCall self c, c.req, none, some (wrapErrors rt.Errorf r.errs)⟩
    else if r.StatusCode ≠ StatusOK then ⟨afterCall self c, c.req, none, some (errorsNew r.body)⟩
    else ⟨afterCall self c, c.req, some cluResp.Cluster, none⟩

def GetCluster (rt : Runtime) (self : ClusterServiceCloud) (clusterID : String) :
    Call ClusterDetails :=
  let c := self
  let url := crdbUrlPrefix c.cred.OrgID ++ "/" ++ clusterID
  let c := { c with req := c.req.Get url }
  let c := c.setAuthHeader
  match rt.EndStructDetails c.req with
  | (r, cluResp) =>
    if r.errs.length > 0 then ⟨afterCall self c, c.req, none, some (wrapErrors rt.Errorf r.errs)⟩
    else if r.StatusCode ≠ StatusOK then ⟨afterCall self c, c.req, none, some (errorsNew r.body)⟩
    else ⟨afterCall self c, c.req, some cluResp, none⟩

def ListUsers (rt : Runtime) (self : ClusterServiceCloud) (clusterID : String) :
    Call (List SqlUser) :=
  let c := self
  let url := crdbUrlPrefix c.cred.OrgID ++ "/" ++ clusterID ++ "/sql-users"
  let c := { c with req := c.req.Get url }
  let c := c.setAuthHeader
  match rt.EndStructUsers c.req with
  | (r, usrResp) =>
    if r.errs.length > 0 then ⟨afterCall self c, c.req, none, some (wrapErrors rt.Errorf r.errs)⟩
    else if r.StatusCode ≠ StatusOK then ⟨afterCall self c, c.req, none, some (errorsNew r.body)⟩
    else
      let sqlUser := usrResp.SqlUserName.map (fun u => ({ User := { Name := u.Name } } : SqlUser))
      ⟨afterCall self c, c.req, some sqlUser, none⟩

/-- The method `CreateUser`; `none` is a panic of `generatePassword`. -/
def CreateUser (rt : Runtime) (self : ClusterServiceCloud) (clusterID : String) :
    Option (Call SqlUser) :=
  let c := self
  let url := crdbUrlPrefix c.cred.OrgID ++ "/" ++ clusterID ++ "/sql-users"
  let sqlUserName := "sql_user_" ++ toString rt.now
  match generatePassword rt.rnd rt.shuf with
  | none => none
  | some sqlUserPwd =>
  let c := { c with req := c.req.Post url }
  let c := c.setAuthHeader
  let aUser : SqlUser := { User := { Name := sqlUserName }, Password := sqlUserPwd }
  let c := { c with req := { c.req with Header := c.req.Header.set "Content-Type" "application/json" } }
  let c := { c with req := c.req.Send aUser }
  let r := rt.End c.req
  if r.errs.length > 0 then some ⟨afterCall self c, c.req, none, some (wrapErrors rt.Errorf r.errs)⟩
  else if r.StatusCode ≠ StatusOK then some ⟨afterCall self c, c.req, none, some (errorsNew r.body)⟩
  else some ⟨afterCall self c, c.req, some aUser, none⟩

/-- The method `DeleteUser`, which has no value result. -/
def DeleteUser (rt : Runtime) (self : ClusterServiceCloud) (clusterID userName : String) :
    Call Unit :=
  let c := self
  let url := crdbUrlPrefix c.cred.OrgID ++ "/" ++ clusterID ++ "/sql-users/" ++ userName
  let c := { c with req := c.req.Delete url }
  let c := c.setAuthHeader
  let r := rt.End c.req
  if r.errs.length > 0 then ⟨afterCall self c, c.req, none, some (wrapErrors rt.Errorf r.errs)⟩
  else if r.StatusCode ≠ StatusOK then ⟨afterCall self c, c.req, none, some (errorsNew r.body)⟩
  else ⟨afterCall self c, c.req, some (), none⟩

def GetClusterCertificate (rt : Runtime) (self : ClusterServiceCloud) (clusterID : String) :
    Call ClusterCertificate :=
  let c := self
  let url := clusterCertUrl clusterID
  let c := { c with req := c.req.Get url }
  let r := rt.End c.req
  if r.errs.length > 0 then ⟨afterCall self c, c.req, none, some (wrapErrors rt.Errorf r.errs)⟩
  else if r.StatusCode ≠ StatusOK then ⟨afterCall self c, c.req, none, some (errorsNew r.body)⟩
  else
    let caCert : ClusterCertificate := { FileName := "root.crt", CaCertificate := r.body }
    ⟨afterCall self c, c.req, some caCert, none⟩

end ClusterServiceCloud

def NewClusterServiceCloud (cred : Credential) : ClusterServiceCloud :=
  { cred := cred, req := SuperAgent.New }

end crdb

/-! ## The world a reconcile runs in, and the calls it makes -/

/-- The answers of everything a reconcile calls: the Kubernetes client embedded in the
reconciler (`Get`, `Create`, `Status().Update`), the implementation of the
`ClusterService` interface, and the client object that `crdb.NewClusterServiceCloud`
builds for a credential. `Create` answers with the object as the API server stored it
(its generated name filled in). -/
structure World (σ : Type) where
  GetConnection : NamespacedName → Except GoError CrdbDBaaSConnection
  GetInventory : NamespacedName → Except GoError CrdbDBaaSInventory
  GetSecret : NamespacedName → Except GoError Secret
  CreateSecret : Secret → Except GoError Secret
  CreateConfigMap : ConfigMap → Except GoError ConfigMap
  UpdateConnectionStatus : CrdbDBaaSConnection → Option GoError
  UpdateInventoryStatus : CrdbDBaaSInventory → Option GoError
  service : crdb.ClusterService σ
  NewClusterServiceCloud : crdb.Credential → σ

/-- One call made during a reconcile, with its arguments and its outcome. -/
inductive Event where
  | getConnection (key : NamespacedName) (ok : Bool)
  | getInventory (key : NamespacedName) (ok : Bool)
  | getSecret (key : NamespacedName) (ok : Bool)
  | setCredential (cred : crdb.Credential)
  | listClusters (ok : Bool)
  | getCluster (clusterID : String) (ok : Bool)
  | createUser (clusterID : String) (user : Option crdb.SqlUser)
  | getClusterCertificate (clusterID : String) (cert : Option crdb.ClusterCertificate)
  | deleteUser (clusterID : String) (userName : String) (ok : Bool)
  | createSecret (obj : Secret) (created : Option Secret)
  | createConfigMap (obj : ConfigMap) (created : Option ConfigMap)
  | updateConnectionStatus (obj : CrdbDBaaSConnection) (ok : Bool)
  | updateInventoryStatus (obj : CrdbDBaaSInventory) (ok : Bool)
deriving DecidableEq, Repr

namespace Event

/-- A call of the cloud REST API through the `ClusterService`. -/
def isRestCall : Event → Bool
  | listClusters _ => true
  | getCluster _ _ => true
  | createUser _ _ => true
  | getClusterCertificate _ _ => true
  | deleteUser _ _ _ => true
  | _ => false

/-- A `Create` of a Secret or a ConfigMap. -/
def isCreate : Event → Bool
  | createSecret _ _ => true
  | createConfigMap _ _ => true
  | _ => false

/-- A `Status().Update`. -/
def isStatusUpdate : Event → Bool
  | updateConnectionStatus _ _ => true
  | updateInventoryStatus _ _ => true
  | _ => false

/-- A `DeleteUser` call. -/
def isDeleteUser : Event → Bool
  | deleteUser _ _ _ => true
  | _ => false

/-- A read of an object, or a `SetCredential`: a call that reaches neither the REST API
nor a stored object. -/
def isLookup : Event → Bool
  | getConnection _ _ => true
  | getInventory _ _ => true
  | getSecret _ _ => true
  | setCredential _ => true
  | _ => false

/-- A Connection status update whose object carries the condition
`ReadyForBinding=True`, whether or not the update succeeds. -/
def isReadyUpdate : Event → Bool
  | updateConnectionStatus obj _ => hasCondition obj.Status.Conditions "ReadyForBinding" "True"
  | _ => false

/-- A failed provisioning step: `CreateUser`, `GetClusterCertificate`, the Secret create
or the ConfigMap create answered with an error. -/
def isFailedStep : Event → Bool
  | createUser _ none => true
  | getClusterCertificate _ none => true
  | createSecret _ none => true
  | createConfigMap _ none => true
  | _ => false

end Event

/-- What a `Reconcile` call leaves behind: its two Go results, the calls it made in
program order, and the reconciler's `ClusterServiceCloud` field after the call. -/
structure Run (σ : Type) where
  result : Result
  err : Option GoError
  trace : List Event
  ClusterServiceCloud : Option σ

/-! ## `controllers/common.go` -/

namespace controllers

open crdb

/-- The constant `DefaultRetryDelay = time.Second * 10`, in nanoseconds. -/
def DefaultRetryDelay : Int := 1000000000 * 10

variable {σ : Type}

def retrieveClientCredential (w : World σ) (selector : NamespacedName) :
    Except GoError Credential × List Event :=
  match w.GetSecret selector with
  | .error err => (.error err, [.getSecret selector false])
  | .ok secret =>
    let cred : Credential :=
      { OrgID := secret.Data.get "orgId", APIKey := secret.Data.get "apiKey" }
    if cred.OrgID = "" ∨ cred.APIKey = "" then
      (.error (errorsNew "failed to retrieve a complete API Credential"),
        [.getSecret selector true])
    else (.ok cred, [.getSecret selector true])

def CreateClusterServiceClient (w : World σ) (selector : NamespacedName) :
    Except GoError σ × List Event :=
  match retrieveClientCredential w selector with
  | (.error err, t) => (.error err, t)
  | (.ok cred, t) => (.ok (w.NewClusterServiceCloud cred), t)

/-- Returns the service object after the call next to the Go error result. -/
def updateClusterServiceCloudCredential (w : World σ) (service : σ)
    (selector : NamespacedName) : σ × Option GoError × List Event :=
  match retrieveClientCredential w selector with
  | (.error err, t) => (service, some err, t)
  | (.ok cred, t) => (w.service.SetCredential service cred, none, t ++ [.setCredential cred])

/-! ## `controllers/crdbdbaasconnection_controller.go` -/

def ConnectionConditionReadyType : String := "ReadyForBinding"
def ConnectionConditionNotReadyType : String := "NotReady"
def ConnectionConditionNotReadyReason : String := "InventoryNotReady"
def ConnectionConditionNotReadyReasonMsg : String := "Wait for Inventory"

/-- Returns the service object after the call and the call made. -/
def removeSqlUser (w : World σ) (apiClient : σ) (clusterID : String) (sqlUser : SqlUser) :
    σ × List Event :=
  match w.service.DeleteUser apiClient clusterID sqlUser.User.Name with
  | (apiClient, some _) => (apiClient, [.deleteUser clusterID sqlUser.User.Name false])
  | (apiClient, none) => (apiClient, [.deleteUser clusterID sqlUser.User.Name true])

def updateStatus (w : World σ) (conn : CrdbDBaaSConnection) (status reason msg : String) :
    Option GoError × List Event :=
  let statusType :=
    if status = ConditionTrue then ConnectionConditionReadyType
    else ConnectionConditionNotReadyType
  let curCondition : Condition :=
    { Type_ := statusType, Status := status, Reason := reason, Message := msg }
  let conn : CrdbDBaaSConnection :=
    { conn with Status := { conn.Status with
        Conditions := SetStatusCondition conn.Status.Conditions curCondition } }
  match w.UpdateConnectionStatus conn with
  | some err => (some err, [.updateConnectionStatus conn false])
  | none => (none, [.updateConnectionStatus conn true])

def getClusterInstance (inventory : CrdbDBaaSInventory) (instanceID : String) :
    Except GoError Instance :=
  match inventory.Status.Conditions.find?
      (fun c => c.Type_ == "SpecSynced" && c.Status == ConditionTrue) with
  | none => .error (errorsNew "CrdbDBaaSInventory is not yet in-synced, or is invalid")
  | some _ =>
    match inventory.Status.Instances.find? (fun inst => inst.InstanceID == instanceID) with
    | some inst => .ok inst
    | none =>
      .error (errorsNew ("instance with id:" ++ instanceID ++ " not found in CrdbDBaaSInventory"))

def buildConfigMap (connection : CrdbDBaaSConnection) (inst : Instance) : ConfigMap :=
  let dbOptions :=
    "sslmode=verify-full&sslrootcert=$HOME/.postgresql/root.crt&options=--cluster=" ++
      inst.InstanceInfo.get "serverless.tenantName"
  let dataMap := GoMap.ofList [
    ("type", "postgresql"),
    ("provider", "CockroachDB Cloud"),
    ("host", inst.InstanceInfo.get "regions.1.sqlDns"),
    ("port", "26257"),
    ("database", "defaultdb"),
    ("options", dbOptions)]
  { Kind := "ConfigMap"
    APIVersion := "v1"
    meta := {
      GenerateName := "crdb-cloud-conn-cm-"
      Namespace := connection.meta.Namespace
      Labels := GoMap.ofList [
        ("managed-by", "ccapi-k8s-operator"),
        ("owner", connection.meta.Name),
        ("owner.kind", connection.Kind),
        ("owner.namespace", connection.meta.Namespace)]
      OwnerReferences := [{
        UID := connection.meta.UID
        APIVersion := connection.APIVersion
        BlockOwnerDeletion := some false
        Controller := some true
        Kind := connection.Kind
        Name := connection.meta.Name }] }
    Data := dataMap }

def buildSecret (connection : CrdbDBaaSConnection) (sqlUser : SqlUser)
    (caCert : ClusterCertificate) : Secret :=
  { Kind := "Secret"
    APIVersion := "v1"
    Type_ := "Opaque"
    meta := {
      GenerateName := "crdb-cloud-user-credentials-"
      Namespace := connection.meta.Namespace
      Labels := GoMap.ofList [
        ("managed-by", "ccapi-k8s-operator"),
        ("owner", connection.meta.Name),
        ("owner.kind", connection.Kind),
        ("owner.namespace", connection.meta.Namespace)]
      OwnerReferences := [{
        UID := connection.meta.UID
        APIVersion := connection.APIVersion
        BlockOwnerDeletion := some false
        Controller := some true
        Kind := connection.Kind
        Name := connection.meta.Name }] }
    Data := GoMap.ofList [
      ("username", sqlUser.User.Name),
      ("password", sqlUser.Password),
      (caCert.FileName, caCert.CaCertificate)] }

namespace CrdbDBaaSConnectionReconciler

/-- The second half of `Reconcile` (lines 119 to 158 of the controller), which runs once
the Connection, its Instance and the client are resolved: `connection`, `inst` and
`service` are the values of these local variables and `t` the calls made so far. -/
def provision (w : World σ) (connection : CrdbDBaaSConnection) (inst : Instance)
    (service : σ) (t : List Event) : Run σ :=
  match w.service.CreateUser service connection.Spec.InstanceID with
  | (service, .error _) =>
    ⟨{ RequeueAfter := DefaultRetryDelay }, none,
      t ++ [.createUser connection.Spec.InstanceID none], some service⟩
  | (service, .ok sqlUser) =>
  let t := t ++ [.createUser connection.Spec.InstanceID (some sqlUser)]
  match w.service.GetClusterCertificate service connection.Spec.InstanceID with
  | (service, .error _) =>
    ⟨{ RequeueAfter := DefaultRetryDelay }, none,
      t ++ [.getClusterCertificate connection.Spec.InstanceID none], some service⟩
  | (service, .ok caCert) =>
  let t := t ++ [.getClusterCertificate connection.Spec.InstanceID (some caCert)]
  let userSecret := buildSecret connection sqlUser caCert
  match w.CreateSecret userSecret with
  | .error _ =>
    match removeSqlUser w service connection.Spec.InstanceID sqlUser with
    | (service, td) =>
      ⟨{ RequeueAfter := DefaultRetryDelay }, none,
        t ++ [.createSecret userSecret none] ++ td, some service⟩
  | .ok createdSecret =>
  let t := t ++ [.createSecret userSecret (some createdSecret)]
  let dbConfigMap := buildConfigMap connection inst
  match w.CreateConfigMap dbConfigMap with
  | .error _ =>
    match removeSqlUser w service connection.Spec.InstanceID sqlUser with
    | (service, td) =>
      ⟨{ RequeueAfter := DefaultRetryDelay }, none,
        t ++ [.createConfigMap dbConfigMap none] ++ td, some service⟩
  | .ok createdConfigMap =>
  let t := t ++ [.createConfigMap dbConfigMap (some createdConfigMap)]
  let connection : CrdbDBaaSConnection :=
    { connection with Status := { connection.Status with
        CredentialsRef := some { Name := createdSecret.meta.Name },
        ConnectionInfoRef := some { Name := createdConfigMap.meta.Name } } }
  match updateStatus w connection ConditionTrue "Ready" "Connection is ready" with
  | (some _, tu) => ⟨{ Requeue := true }, none, t ++ tu, some service⟩
  | (none, tu) => ⟨{}, none, t ++ tu, some service⟩

/-- The method `(*CrdbDBaaSConnectionReconciler).Reconcile`; `cached` is the reconciler's
`ClusterServiceCloud` field when the call starts (`none` is `nil`). Lines 57 to 117 are
here and the rest of the body is `provision`. -/
def Reconcile (w : World σ) (cached : Option σ) (req : NamespacedName) : Run σ :=
  match w.GetConnection req with
  | .error err =>
    if err.notFound then ⟨{ Requeue := true }, none, [.getConnection req false], cached⟩
    else ⟨{}, some err, [.getConnection req false], cached⟩
  | .ok connection =>
    let t := [Event.getConnection req true]
    if connection.Status.Conditions.any
        (fun cond => cond.Type_ == ConnectionConditionReadyType && cond.Status == ConditionTrue)
    then ⟨{}, none, t, cached⟩
    else
    let inventoryKey : NamespacedName :=
      { Namespace := connection.Spec.InventoryRef.Namespace,
        Name := connection.Spec.InventoryRef.Name }
    match w.GetInventory inventoryKey with
    | .error err =>
      if err.notFound then
        ⟨{ RequeueAfter := DefaultRetryDelay }, some err,
          t ++ [.getInventory inventoryKey false], cached⟩
      else ⟨{}, some err, t ++ [.getInventory inventoryKey false], cached⟩
    | .ok inventory =>
    let t := t ++ [.getInventory inventoryKey true]
    match getClusterInstance inventory connection.Spec.InstanceID with
    | .error err =>
      match updateStatus w connection ConditionFalse ConnectionConditionNotReadyReason
          ConnectionConditionNotReadyReasonMsg with
      | (some statusErr, tu) => ⟨{ Requeue := true }, some statusErr, t ++ tu, cached⟩
      | (none, tu) => ⟨{}, some err, t ++ tu, cached⟩
    | .ok inst =>
    let secretSelector : NamespacedName :=
      { Namespace := inventory.Spec.CredentialsRef.Namespace,
        Name := inventory.Spec.CredentialsRef.Name }
    match cached with
    | none =>
      match CreateClusterServiceClient w secretSelector with
      | (.error _, tc) => ⟨{ RequeueAfter := DefaultRetryDelay }, none, t ++ tc, none⟩
      | (.ok service, tc) => provision w connection inst service (t ++ tc)
    | some service =>
      match updateClusterServiceCloudCredential w service secretSelector with
      | (service, _, tc) => provision w connection inst service (t ++ tc)

end CrdbDBaaSConnectionReconciler

end controllers

/-! ## `controllers/crdbdbaasinventory_controller.go` -/

namespace controllers

open crdb

variable {σ : Type}

def InventoryConditionReadyType : String := "SpecSynced"
def InventoryConditionReason : String := "SyncOK"
def InventoryConditionReadyMessage : String := "Cluster details in sync"

/-- The body of the loop over the clusters in `discoverClusters`, once `GetCluster`
has answered with `details`: the Instance built for cluster `c`. -/
def clusterInstance (c : Cluster) (details : ClusterDetails) : Instance :=
  let data : GoMap := []
  let data := data.set "serverless.tenantName" c.Serverless.TenantName
  let data := details.Regions.enum.foldl
    (fun data ir =>
      let data := data.set ("regions." ++ toString (ir.1 + 1) ++ ".name") ir.2.Name
      data.set ("regions." ++ toString (ir.1 + 1) ++ ".sqlDns") ir.2.SqlDns)
    data
  let data := data.set "cockroachVersion" c.CockroachVersion
  let data := data.set "creatorId" c.CreatorId
  let data := data.set "cloudProvider" c.CloudProvider
  let data := data.set "plan" c.Plan
  let data := data.set "state" c.State
  let data := data.set "longRunningOperationStatus" c.LongRunningOperationStatus
  let data := data.set "createAt" c.CreatedAt.text
  let data := data.set "updateAt" c.UpdatedAt.text
  { InstanceID := c.ID, Name := c.Name, InstanceInfo := data }

/-- The loop of `discoverClusters` over the clusters still to fetch; `instanceLst` holds
the Instances built so far. Returns the service object after the calls as well. -/
def discoverLoop (w : World σ) :
    σ → List Cluster → List Instance → σ × Except GoError (List Instance) × List Event
  | clusterServiceCloud, [], instanceLst => (clusterServiceCloud, .ok instanceLst, [])
  | clusterServiceCloud, c :: clusters, instanceLst =>
    match w.service.GetCluster clusterServiceCloud c.ID with
    | (clusterServiceCloud, .error err) =>
      (clusterServiceCloud, .error err, [.getCluster c.ID false])
    | (clusterServiceCloud, .ok details) =>
      let cur := clusterInstance c details
      match discoverLoop w clusterServiceCloud clusters (instanceLst ++ [cur]) with
      | (clusterServiceCloud, res, t) => (clusterServiceCloud, res, .getCluster c.ID true :: t)

/-- Returns the service object after the calls as well. -/
def discoverClusters (w : World σ) (clusterServiceCloud : σ) :
    σ × Except GoError (List Instance) × List Event :=
  match w.service.ListClusters clusterServiceCloud with
  | (clusterServiceCloud, .error err) => (clusterServiceCloud, .error err, [.listClusters false])
  | (clusterServiceCloud, .ok clusters) =>
    match discoverLoop w clusterServiceCloud clusters [] with
    | (clusterServiceCloud, res, t) => (clusterServiceCloud, res, .listClusters true :: t)

namespace CrdbDBaaSInventoryReconciler

/-- The second half of `Reconcile` (lines 89 to 112 of the controller), which runs once
the Inventory and the client are resolved: `inventory` and `service` are the values of
these local variables and `t` the calls made so far. -/
def sync (w : World σ) (inventory : CrdbDBaaSInventory) (service : σ) (t : List Event) :
    Run σ :=
  match discoverClusters w service with
  | (service, .error _, td) =>
    ⟨{ RequeueAfter := DefaultRetryDelay }, none, t ++ td, some service⟩
  | (service, .ok instanceLst, td) =>
  let t := t ++ td
  let curCondition : Condition :=
    { Type_ := InventoryConditionReadyType, Status := ConditionTrue,
      Reason := InventoryConditionReason, Message := InventoryConditionReadyMessage }
  let inventory : CrdbDBaaSInventory :=
    { inventory with Status := { inventory.Status with
        Conditions := SetStatusCondition inventory.Status.Conditions curCondition } }
  let inventory : CrdbDBaaSInventory :=
    { inventory with Status := { inventory.Status with Instances := instanceLst } }
  match w.UpdateInventoryStatus inventory with
  | some err =>
    ⟨{ Requeue := true }, some err, t ++ [.updateInventoryStatus inventory false], some service⟩
  | none => ⟨{}, none, t ++ [.updateInventoryStatus inventory true], some service⟩

/-- The method `(*CrdbDBaaSInventoryReconciler).Reconcile`; `cached` is the reconciler's
`ClusterServiceCloud` field when the call starts (`none` is `nil`). Lines 53 to 87 are
here and the rest of the body is `sync`. -/
def Reconcile (w : World σ) (cached : Option σ) (req : NamespacedName) : Run σ :=
  match w.GetInventory req with
  | .error err =>
    if err.notFound then ⟨{}, none, [.getInventory req false], cached⟩
    else ⟨{}, some err, [.getInventory req false], cached⟩
  | .ok inventory =>
    let t := [Event.getInventory req true]
    let secretSelector : NamespacedName :=
      { Namespace := inventory.Spec.CredentialsRef.Namespace,
        Name := inventory.Spec.CredentialsRef.Name }
    match cached with
    | none =>
      match CreateClusterServiceClient w secretSelector with
      | (.error _, tc) => ⟨{ RequeueAfter := DefaultRetryDelay }, none, t ++ tc, none⟩
      | (.ok service, tc) => sync w inventory service (t ++ tc)
    | some service =>
      match updateClusterServiceCloudCredential w service secretSelector with
      | (service, some _, tc) =>
        ⟨{ RequeueAfter := DefaultRetryDelay }, none, t ++ tc, some service⟩
      | (service, none, tc) => sync w inventory service (t ++ tc)

end CrdbDBaaSInventoryReconciler

end controllers

/-! ## Request headers -/

namespace crdb

/-- Whether a dispatched request carries `Accept: application/json` and
`Authorization: Bearer <APIKey>` for the given credential. -/
def carriesAuth (sent : SuperAgent) (cred : Credential) : Prop :=
  sent.Header.lookup "Accept" = some "application/json" ∧
  sent.Header.lookup "Authorization" = some ("Bearer " ++ cred.APIKey)

end crdb

/-! ## Scenarios

Concrete worlds for the scenarios of the specification: a Connection `ns/conn` that
targets cluster `c1` of the Inventory `ns/inv`, a cloud with the clusters `c1` and `c2`,
and an API server that names a created object by appending `x` to its generated-name
prefix. -/

namespace scenario

open crdb controllers

/-- The key of the Connection. -/
def req : NamespacedName := { Namespace := "ns", Name := "conn" }

/-- The key of the Inventory. -/
def inventoryKey : NamespacedName := { Namespace := "ns", Name := "inv" }

/-- The Connection `ns/conn` with the given status conditions. -/
def connection (conditions : List Condition) : CrdbDBaaSConnection :=
  { Kind := "CrdbDBaaSConnection"
    APIVersion := "dbaas.redhat.com/v1alpha1"
    meta := { Name := "conn", Namespace := "ns", UID := "uid-1" }
    Spec := { InventoryRef := { Namespace := "ns", Name := "inv" }, InstanceID := "c1" }
    Status := { Conditions := conditions } }

/-- The Inventory `ns/inv` with the given status. -/
def inventory (conditions : List Condition) (instances : List Instance) : CrdbDBaaSInventory :=
  { Kind := "CrdbDBaaSInventory"
    APIVersion := "dbaas.redhat.com/v1alpha1"
    meta := { Name := "inv", Namespace := "ns", UID := "uid-2" }
    Spec := { CredentialsRef := { Namespace := "ns", Name := "cred" } }
    Status := { Conditions := conditions, Instances := instances } }

/-- The condition `SpecSynced=True`. -/
def synced : Condition :=
  { Type_ := "SpecSynced", Status := "True", Reason := "SyncOK",
    Message := "Cluster details in sync" }

/-- The condition `ReadyForBinding=True`. -/
def ready : Condition :=
  { Type_ := "ReadyForBinding", Status := "True", Reason := "Ready",
    Message := "Connection is ready" }

/-- The Instance of cluster `c1`. -/
def instanceC1 : Instance :=
  { InstanceID := "c1", Name := "one",
    InstanceInfo := [("serverless.tenantName", "tenant-1"), ("regions.1.sqlDns", "db.example")] }

/-- The two clusters of Scenario A. -/
def clusters : List Cluster :=
  [{ ID := "c1", Name := "one" }, { ID := "c2", Name := "two" }]

/-- The user the service creates. -/
def sqlUser : SqlUser := { User := { Name := "sql_user_7" }, Password := "0~abcdefghij" }

/-- The certificate the service serves. -/
def caCert : ClusterCertificate := { FileName := "root.crt", CaCertificate := "PEM" }

/-- A service without state: it lists the two clusters, creates `sqlUser`, serves
`caCert`, and `DeleteUser` succeeds or fails as `deleteOk` says. -/
def service (deleteOk : Bool) : ClusterService Unit :=
  { ListClusters := fun s => (s, .ok clusters)
    GetCluster := fun s id =>
      (s, .ok { Cluster := { ID := id }, Regions := [{ Name := "r1", SqlDns := "db.example" }] })
    ListUsers := fun s _ => (s, .ok [])
    CreateUser := fun s _ => (s, .ok sqlUser)
    DeleteUser := fun s _ _ => (s, if deleteOk then none else some (errorsNew "gone"))
    GetClusterCertificate := fun s _ => (s, .ok caCert)
    SetCredential := fun s _ => s }

/-- A world that holds the given Connection and Inventory and a complete credential
secret; `secretOk` says whether creating a Secret succeeds, and every other call of the
API server succeeds. -/
def world (conn : CrdbDBaaSConnection) (inv : CrdbDBaaSInventory) (secretOk deleteOk : Bool) :
    World Unit :=
  { GetConnection := fun _ => .ok conn
    GetInventory := fun _ => .ok inv
    GetSecret := fun _ => .ok { Data := [("orgId", "org1"), ("apiKey", "key1")] }
    CreateSecret := fun s =>
      if secretOk then .ok { s with meta := { s.meta with Name := s.meta.GenerateName ++ "x" } }
      else .error (errorsNew "forbidden")
    CreateConfigMap := fun c =>
      .ok { c with meta := { c.meta with Name := c.meta.GenerateName ++ "x" } }
    UpdateConnectionStatus := fun _ => none
    UpdateInventoryStatus := fun _ => none
    service := service deleteOk
    NewClusterServiceCloud := fun _ => () }

/-- Scenario D: a Connection without conditions, a synced Inventory that holds `c1`,
and every call succeeds. -/
def successWorld : World Unit :=
  world (connection []) (inventory [synced] [instanceC1]) true true

/-- Scenario C: as Scenario D, but the Secret create fails, and so does `DeleteUser`. -/
def secretFailureWorld : World Unit :=
  world (connection []) (inventory [synced] [instanceC1]) false false

/-- Scenario B: the synced Inventory does not hold `c1`. -/
def missingInstanceWorld : World Unit :=
  world (connection []) (inventory [synced] []) true true

/-- Scenario A: the stored Inventory is not synced yet and holds one stale Instance. -/
def staleInventoryWorld : World Unit :=
  world (connection []) (inventory [] [{ InstanceID := "old" }]) true true

/-- The Inventory object of the status update of Scenario A. -/
def syncedInventory : CrdbDBaaSInventory :=
  inventory [synced]
    [clusterInstance { ID := "c1", Name := "one" }
        { Cluster := { ID := "c1" }, Regions := [{ Name := "r1", SqlDns := "db.example" }] },
     clusterInstance { ID := "c2", Name := "two" }
        { Cluster := { ID := "c2" }, Regions := [{ Name := "r1", SqlDns := "db.example" }] }]

/-- A Connection that is Ready already. -/
def readyWorld : World Unit :=
  world (connection [ready]) (inventory [synced] [instanceC1]) true true

/-- The Secret of Scenario D as it is handed to `Create`. -/
def userSecret : Secret := buildSecret (connection []) sqlUser caCert

/-- The Secret of Scenario D as the API server stored it. -/
def createdSecret : Secret :=
  { userSecret with meta := { userSecret.meta with Name := "crdb-cloud-user-credentials-x" } }

/-- The ConfigMap of Scenario D as it is handed to `Create`. -/
def dbConfigMap : ConfigMap := buildConfigMap (connection []) instanceC1

/-- The ConfigMap of Scenario D as the API server stored it. -/
def createdConfigMap : ConfigMap :=
  { dbConfigMap with meta := { dbConfigMap.meta with Name := "crdb-cloud-conn-cm-x" } }

/-- The Connection object of the final status update of Scenario D. -/
def committed : CrdbDBaaSConnection :=
  { connection [ready] with
    Status := {
      Conditions := [ready]
      CredentialsRef := some { Name := "crdb-cloud-user-credentials-x" }
      ConnectionInfoRef := some { Name := "crdb-cloud-conn-cm-x" } } }

/-- The calls of Scenario D before the final status update. -/
def successCalls : List Event :=
  [.getConnection req true, .getInventory inventoryKey true,
   .getSecret { Namespace := "ns", Name := "cred" } true,
   .createUser "c1" (some sqlUser), .getClusterCertificate "c1" (some caCert),
   .createSecret userSecret (some createdSecret),
   .createConfigMap dbConfigMap (some createdConfigMap)]

/-- The credential of organization `org1`. -/
def cred1 : Credential := { OrgID := "org1", APIKey := "key1" }

/-- The credential of organization `org2`. -/
def cred2 : Credential := { OrgID := "org2", APIKey := "key2" }

/-- A runtime in which every request is answered with status 200 and the body `PEM`,
the clock reads 1 and every random draw is 0. -/
def runtime : Runtime :=
  { End := fun _ => { StatusCode := 200, body := "PEM" }
    EndStructClusters := fun _ => ({ StatusCode := 200 }, { Cluster := [] })
    EndStructDetails := fun _ => ({ StatusCode := 200 }, {})
    EndStructUsers := fun _ => ({ StatusCode := 200 }, {})
    Errorf := fun _ e => e
    now := 1
    rnd := fun _ => 0
    shuf := fun _ => 0 }

/-- The user `CreateUser` generates in `runtime`. -/
def generatedUser : SqlUser := { User := { Name := "sql_user_1" }, Password := "~AAAAAAAAAA0" }

end scenario

/-! ## The library function `fmt.Errorf`, as far as `wrapErrors` needs it -/

namespace crdb

/-- The text `fmt` prints for a format string and at most one operand, an error with
message `msg` (`some msg` as long as the operand is not consumed), on the fragment of
formats that this development covers: plain text, `%%`, and the verbs `%v`, `%s` and
`%w` without flags, width or index. A verb prints the operand's message, or
`%!v(MISSING)` (with its own letter) when no operand is left; a `%` that ends the
format prints `%!(NOVERB)`. The answer is `none` outside the fragment: any other
character after `%`, or an operand that no verb consumes. -/
def fmtFragment : List Char → Option String → Option (List Char)
  | [], none => some []
  | [], some _ => none
  | [c], operand =>
    if c ≠ '%' then (fmtFragment [] operand).map (c :: ·)
    else match operand with
      | none => some "%!(NOVERB)".data
      | some _ => none
  | c :: v :: rest, operand =>
    if c ≠ '%' then (fmtFragment (v :: rest) operand).map (c :: ·)
    else if v = '%' then (fmtFragment rest operand).map ('%' :: ·)
    else if v = 'v' ∨ v = 's' ∨ v = 'w' then
      match operand with
      | some msg => (fmtFragment rest none).map (msg.data ++ ·)
      | none => (fmtFragment rest none).map (['%', '!', v] ++ "(MISSING)".data ++ ·)
    else none

/-- A function is `fmt.Errorf` with one error operand, as far as `fmtFragment` knows it:
on every format of the fragment, the message of the error it returns is the printed
text. -/
def AgreesWithErrorf (Errorf : String → GoError → GoError) : Prop :=
  ∀ format e out, fmtFragment format.data (some e.msg) = some out →
    (Errorf format e).msg = String.mk out

end crdb

/-! ## More scenarios -/

namespace scenario

open crdb controllers

/-- The error of the API server for an object that does not exist. -/
def notFoundError : GoError := { msg := "not found", notFound := true }

/-- The Connection of the request has been deleted. -/
def deletedConnectionWorld : World Unit :=
  { successWorld with GetConnection := fun _ => .error notFoundError }

/-- The Inventory that the Connection references does not exist. -/
def missingInventoryWorld : World Unit :=
  { successWorld with GetInventory := fun _ => .error notFoundError }

/-- As Scenario A, but `GetCluster` fails for the second cluster, `c2`. -/
def secondClusterFailsWorld : World Unit :=
  { staleInventoryWorld with
    service := { service true with
      GetCluster := fun s id =>
        if id = "c2" then (s, .error (errorsNew "unavailable"))
        else (s, .ok { Cluster := { ID := id }, Regions := [{ Name := "r1", SqlDns := "db.example" }] }) } }

/-- The credential secret of the scenarios. -/
def credentialSecret : Secret := { Data := [("orgId", "org1"), ("apiKey", "key1")] }

/-- A function that is `fmt.Errorf` on the fragment of `fmtFragment` and returns an
error with an empty message elsewhere. -/
def fragmentErrorf (format : String) (e : GoError) : GoError :=
  match fmtFragment format.data (some e.msg) with
  | some out => { msg := String.mk out }
  | none => { msg := "" }

/-- Two transport errors, the first with a `%s` in its message. -/
def transportErrors : List GoError := [errorsNew "dial %s failed", errorsNew "tls handshake"]

end scenario

/-! # Theorems -/

/-! ## Lists and conditions -/

theorem append_singleton_split {α : Type} (P : α → Prop) (l pre post : List α) (x e : α)
    (h : l ++ [x] = pre ++ e :: post) (hl : ∀ y ∈ l, ¬ P y) (he : P e) :
    pre = l ∧ e = x ∧ post = [] := by
  induction l generalizing pre with
  | nil =>
    cases pre with
    | nil => simp at h; exact ⟨rfl, h.1.symm, h.2⟩
    | cons b pre' => simp at h
  | cons a l' ih =>
    cases pre with
    | nil =>
      simp at h
      exact absurd (h.1 ▸ he) (hl a (List.mem_cons_self _ _))
    | cons b pre' =>
      simp at h
      obtain ⟨hp, he', hpost⟩ := ih pre' h.2 (fun y hy => hl y (List.mem_cons_of_mem _ hy))
      exact ⟨by rw [h.1, hp], he', hpost⟩

/-- A trace without a Ready update satisfies the readiness invariant. -/
theorem no_ready_update_invariant (tr : List Event) (Q : List Event → Prop)
    (hno : ∀ e ∈ tr, e.isReadyUpdate = false) :
    (∀ pre e post, tr = pre ++ e :: post → e.isReadyUpdate = true → Q pre) ∧
    ((∃ e ∈ tr, e.isFailedStep = true) → ∀ e ∈ tr, e.isReadyUpdate = false) := by
  refine ⟨fun pre e post htr he => ?_, fun _ => hno⟩
  have := hno e (by rw [htr]; simp)
  rw [this] at he; cases he


/-- The first element of a list that satisfies a predicate is unique. -/
theorem first_match_unique {α : Type} (P : α → Prop) (as bs pre post : List α) (a b : α)
    (h : as ++ a :: bs = pre ++ b :: post) (has : ∀ x ∈ as, ¬ P x) (ha : P a)
    (hpre : ∀ x ∈ pre, ¬ P x) (hb : P b) : a = b := by
  induction as generalizing pre with
  | nil =>
    cases pre with
    | nil => simp at h; exact h.1
    | cons p pre' =>
      simp at h
      exact absurd (h.1 ▸ ha) (hpre p (List.mem_cons_self _ _))
  | cons x as' ih =>
    cases pre with
    | nil =>
      simp at h
      exact absurd (h.1 ▸ hb) (has x (List.mem_cons_self _ _))
    | cons p pre' =>
      simp at h
      exact ih pre' h.2 (fun y hy => has y (List.mem_cons_of_mem _ hy))
        (fun y hy => hpre y (List.mem_cons_of_mem _ hy))

theorem SetStatusCondition_mem (conds : List Condition) (new : Condition) :
    ∃ c ∈ SetStatusCondition conds new, c.Type_ = new.Type_ ∧ c.Status = new.Status ∧
      c.Reason = new.Reason ∧ c.Message = new.Message := by
  induction conds with
  | nil => exact ⟨new, by simp [SetStatusCondition]⟩
  | cons c cs ih =>
    unfold SetStatusCondition
    by_cases h : c.Type_ = new.Type_
    · rw [if_pos h]
      exact ⟨_, List.mem_cons_self _ _, h, rfl, rfl, rfl⟩
    · rw [if_neg h]
      obtain ⟨c', hm, hc'⟩ := ih
      exact ⟨c', List.mem_cons_of_mem _ hm, hc'⟩

theorem hasCondition_iff (conds : List Condition) (type status : String) :
    hasCondition conds type status = true ↔ ∃ c ∈ conds, c.Type_ = type ∧ c.Status = status := by
  simp [hasCondition, List.any_eq_true]

theorem SetStatusCondition_other (conds : List Condition) (new : Condition) (type status : String)
    (hne : new.Type_ ≠ type) (h : hasCondition conds type status = false) :
    hasCondition (SetStatusCondition conds new) type status = false := by
  induction conds with
  | nil => simp [SetStatusCondition, hasCondition, hne]
  | cons c cs ih =>
    have hc : (c.Type_ == type && c.Status == status) = false := by
      simp [hasCondition] at h; simpa using h.1
    have hcs : hasCondition cs type status = false := by
      simp [hasCondition] at h ⊢; exact h.2
    unfold SetStatusCondition
    by_cases hty : c.Type_ = new.Type_
    · rw [if_pos hty]
      have : c.Type_ ≠ type := hty ▸ hne
      simp [hasCondition] at hcs ⊢
      exact ⟨fun h' => absurd h' this, hcs⟩
    · rw [if_neg hty]
      have := ih hcs
      simp [hasCondition] at this hc ⊢
      exact ⟨hc, this⟩


/-! ## The password generator -/

namespace crdb

theorem swap_perm (buf : List Char) (i j : Nat) (hi : i < buf.length) (hj : j < buf.length) :
    ∃ buf', swap buf i j = some buf' ∧ buf'.Perm buf := by
  unfold swap
  rw [List.getElem?_eq_getElem hi, List.getElem?_eq_getElem hj]
  refine ⟨_, rfl, ?_⟩
  rw [List.perm_iff_count]
  intro a
  rw [List.count_set _ _ _ _ (by simpa using hj), List.count_set _ _ _ _ hi]
  simp only [List.getElem_set]
  by_cases hij : i = j
  · subst hij
    simp only [if_true]
    by_cases h : buf[i] = a
    · have : 0 < List.count a buf := by
        rw [List.count_pos_iff]; exact h ▸ List.getElem_mem _
      simp [h]; omega
    · simp [h]
  · simp only [hij, if_false]
    by_cases h1 : buf[i] = a <;> by_cases h2 : buf[j] = a
    · have : 0 < List.count a buf := by
        rw [List.count_pos_iff]; exact h1 ▸ List.getElem_mem _
      simp [h1, h2]; omega
    · have : 0 < List.count a buf := by
        rw [List.count_pos_iff]; exact h1 ▸ List.getElem_mem _
      simp [h1, h2]; omega
    · simp [h1, h2]
    · simp [h1, h2]

/-- When every draw of `rand.Shuffle` is in range, the loop permutes the buffer. -/
theorem shuffleLoop_perm (shuf : Nat → Nat) (n : Nat) (buf : List Char) (hn : n < buf.length)
    (hshuf : ∀ i, 1 ≤ i → i ≤ n → shuf i ≤ i) :
    ∃ buf', shuffleLoop shuf n buf = some buf' ∧ buf'.Perm buf := by
  induction n generalizing buf with
  | zero => exact ⟨buf, rfl, List.Perm.refl _⟩
  | succ i ih =>
    unfold shuffleLoop
    have hj : shuf (i + 1) < buf.length := by
      have := hshuf (i + 1) (by omega) (by omega)
      omega
    obtain ⟨b1, hb1, hp1⟩ := swap_perm buf (i + 1) (shuf (i + 1)) hn hj
    rw [hb1]
    obtain ⟨b2, hb2, hp2⟩ := ih b1 (by rw [hp1.length_eq]; omega)
      (fun k hk1 hk2 => hshuf k hk1 (by omega))
    exact ⟨b2, hb2, hp2.trans hp1⟩

/-- When every draw of the fill loop is in range, the loop overwrites the positions
`i .. i + fuel - 1` with characters of `all` and leaves the others alone. -/
theorem fillLoop_spec (rnd : Nat → Nat) (fuel i : Nat) (buf : List Char)
    (hlen : i + fuel ≤ buf.length)
    (hrnd : ∀ k, i ≤ k → k < i + fuel → rnd k < all.data.length) :
    ∃ buf', fillLoop rnd fuel i buf = some buf' ∧ buf'.length = buf.length ∧
      (∀ k, k < i → buf'[k]? = buf[k]?) ∧
      (∀ k, i ≤ k → k < i + fuel → ∃ c ∈ all.data, buf'[k]? = some c) := by
  induction fuel generalizing i buf with
  | zero => exact ⟨buf, rfl, rfl, fun _ _ => rfl, fun k h1 h2 => by omega⟩
  | succ fuel ih =>
    unfold fillLoop
    have hk := hrnd i (le_refl _) (by omega)
    simp only [getRandInt]
    rw [List.getElem?_eq_getElem hk]
    obtain ⟨b', hb', hl', hlow, hhigh⟩ := ih (i + 1) (buf.set i all.data[rnd i])
      (by simp; omega) (fun k h1 h2 => hrnd k (by omega) (by omega))
    refine ⟨b', hb', by simpa using hl', ?_, ?_⟩
    · intro k hk'
      rw [hlow k (by omega), List.getElem?_set_ne (by omega)]
    · intro k h1 h2
      by_cases hki : k = i
      · subst hki
        refine ⟨all.data[rnd k], List.getElem_mem _, ?_⟩
        rw [hlow k (by omega), List.getElem?_set_self (by omega)]
      · exact hhigh k (by omega) (by omega)

end crdb

namespace crdb

theorem digits_subset_all : ∀ c ∈ digits.data, c ∈ all.data := by decide

theorem specials_subset_all : ∀ c ∈ specials.data, c ∈ all.data := by decide

/-- C6. Password postcondition: when every draw of `getRandInt` is in range of its
alphabet and every draw of the shuffle is in range, `generatePassword` returns a string
of length 12 with at least one character of `digits` and at least one character of
`specials`, all of whose characters are in `all`; and the same holds of every
permutation of that string, so it does not depend on the permutation the shuffle
applies. -/
theorem generatePassword_postcondition (rnd shuf : Nat → Nat)
    (h0 : rnd 0 < digits.length) (h1 : rnd 1 < specials.length)
    (hfill : ∀ i, 2 ≤ i → i < 12 → rnd i < all.length)
    (hshuf : ∀ i, 1 ≤ i → i < 12 → shuf i ≤ i) :
    ∃ s, generatePassword rnd shuf = some s ∧
      s.length = 12 ∧
      (∃ c ∈ s.data, c ∈ "0123456789".data) ∧
      (∃ c ∈ s.data, c ∈ "~=+%^*/()[]\x7b\x7d/!@#$?|".data) ∧
      (∀ c ∈ s.data, c ∈ all.data) ∧
      (∀ p : List Char, p.Perm s.data →
        p.length = 12 ∧ (∃ c ∈ p, c ∈ digits.data) ∧ (∃ c ∈ p, c ∈ specials.data) ∧
        ∀ c ∈ p, c ∈ all.data) := by
  have h0' : rnd 0 < digits.data.length := h0
  have h1' : rnd 1 < specials.data.length := h1
  obtain ⟨B, hB, hBlen, hBlow, hBhigh⟩ := fillLoop_spec rnd 10 2
    (((List.replicate 12 (Char.ofNat 0)).set 0 digits.data[rnd 0]).set 1 specials.data[rnd 1])
    (by simp) (fun k hk1 hk2 => hfill k hk1 (by omega))
  have hBlen' : B.length = 12 := by simpa using hBlen
  obtain ⟨S, hS, hperm⟩ := shuffleLoop_perm shuf 11 B (by omega)
    (fun i hi1 hi2 => hshuf i hi1 (by omega))
  have hgen : generatePassword rnd shuf = some (String.mk S) := by
    unfold generatePassword
    simp only [getRandInt]
    rw [List.getElem?_eq_getElem h0', List.getElem?_eq_getElem h1']
    simp only [Nat.reduceSub, hB, Shuffle, hBlen', hS]
  have hB0 : B[0]? = some digits.data[rnd 0] := by
    rw [hBlow 0 (by omega)]
    simp
  have hB1 : B[1]? = some specials.data[rnd 1] := by
    rw [hBlow 1 (by omega)]
    simp
  have hd : ∃ c ∈ B, c ∈ digits.data :=
    ⟨_, List.getElem?_mem hB0, List.getElem_mem _⟩
  have hs : ∃ c ∈ B, c ∈ specials.data :=
    ⟨_, List.getElem?_mem hB1, List.getElem_mem _⟩
  have hall : ∀ c ∈ B, c ∈ all.data := by
    intro c hc
    obtain ⟨k, hk, rfl⟩ := List.getElem_of_mem hc
    by_cases hk0 : k = 0
    · subst hk0
      have : B[0] = digits.data[rnd 0] := by
        have := hB0; rw [List.getElem?_eq_getElem hk] at this; exact Option.some.inj this
      rw [this]; exact digits_subset_all _ (List.getElem_mem _)
    by_cases hk1 : k = 1
    · subst hk1
      have : B[1] = specials.data[rnd 1] := by
        have := hB1; rw [List.getElem?_eq_getElem hk] at this; exact Option.some.inj this
      rw [this]; exact specials_subset_all _ (List.getElem_mem _)
    obtain ⟨c, hc, hck⟩ := hBhigh k (by omega) (by omega)
    rw [List.getElem?_eq_getElem hk] at hck
    rw [Option.some.inj hck]; exact hc
  have key : ∀ p : List Char, p.Perm B →
      p.length = 12 ∧ (∃ c ∈ p, c ∈ digits.data) ∧ (∃ c ∈ p, c ∈ specials.data) ∧
      ∀ c ∈ p, c ∈ all.data := by
    intro p hp
    refine ⟨by rw [hp.length_eq, hBlen'], ?_, ?_, fun c hc => hall c (hp.mem_iff.1 hc)⟩
    · obtain ⟨c, hc, hcd⟩ := hd
      exact ⟨c, hp.mem_iff.2 hc, hcd⟩
    · obtain ⟨c, hc, hcd⟩ := hs
      exact ⟨c, hp.mem_iff.2 hc, hcd⟩
  obtain ⟨k1, k2, k3, k4⟩ := key S hperm
  exact ⟨String.mk S, hgen, k1, k2, k3, k4, fun p hp => key p (hp.trans hperm)⟩

end crdb

namespace crdb

/-- Witness for C6: with every draw equal to 0 the password is `~AAAAAAAAAA0`. -/
theorem generatePassword_postcondition_witness :
    generatePassword (fun _ => 0) (fun _ => 0) = some "~AAAAAAAAAA0" ∧
    ∃ s, generatePassword (fun _ => 0) (fun _ => 0) = some s ∧
      s.length = 12 ∧
      (∃ c ∈ s.data, c ∈ "0123456789".data) ∧
      (∃ c ∈ s.data, c ∈ "~=+%^*/()[]\x7b\x7d/!@#$?|".data) ∧
      (∀ c ∈ s.data, c ∈ all.data) ∧
      (∀ p : List Char, p.Perm s.data →
        p.length = 12 ∧ (∃ c ∈ p, c ∈ digits.data) ∧ (∃ c ∈ p, c ∈ specials.data) ∧
        ∀ c ∈ p, c ∈ all.data) :=
  ⟨by decide,
    generatePassword_postcondition (fun _ => 0) (fun _ => 0) (by decide) (by decide)
      (fun _ _ _ => by show 0 < all.length; decide) (fun _ _ _ => Nat.zero_le _)⟩

end crdb

namespace crdb

theorem swap_length (buf buf' : List Char) (i j : Nat) (h : swap buf i j = some buf') :
    buf'.length = buf.length := by
  unfold swap at h
  split at h
  · simp only [Option.some.injEq] at h
    subst h
    simp
  · cases h

theorem shuffleLoop_length (shuf : Nat → Nat) (n : Nat) (buf buf' : List Char)
    (h : shuffleLoop shuf n buf = some buf') : buf'.length = buf.length := by
  induction n generalizing buf with
  | zero =>
    simp only [shuffleLoop, Option.some.injEq] at h
    rw [h]
  | succ i ih =>
    unfold shuffleLoop at h
    rcases hs : swap buf (i + 1) (shuf (i + 1)) with _ | b
    · simp [hs] at h
    · simp only [hs] at h
      rw [ih b h, swap_length _ _ _ _ hs]

theorem fillLoop_length (rnd : Nat → Nat) (fuel i : Nat) (buf buf' : List Char)
    (h : fillLoop rnd fuel i buf = some buf') : buf'.length = buf.length := by
  induction fuel generalizing i buf with
  | zero =>
    simp only [fillLoop, Option.some.injEq] at h
    rw [h]
  | succ fuel ih =>
    unfold fillLoop at h
    rcases hs : all.data[getRandInt rnd i all.length]? with _ | b
    · simp [hs] at h
    · simp only [hs] at h
      rw [ih _ _ h]
      simp

/-- Whenever `generatePassword` returns, the password has 12 characters. -/
theorem generatePassword_length (rnd shuf : Nat → Nat) (s : String)
    (h : generatePassword rnd shuf = some s) : s.length = 12 := by
  unfold generatePassword at h
  simp only [] at h
  split at h
  · cases h
  split at h
  · cases h
  split at h
  · cases h
  next B hB =>
  split at h
  · cases h
  next S hS =>
  simp only [Option.some.injEq] at h
  subst h
  have h1 := fillLoop_length _ _ _ _ _ hB
  have h2 := shuffleLoop_length _ _ _ _ hS
  show S.length = 12
  rw [h2, h1]
  simp

end crdb


/-! ## The REST client -/

namespace crdb

/-- C8. `SetCredential` does not replace the credential: after
`NewClusterServiceCloud(cred1)` and `SetCredential(cred2)` the client still holds
`cred1`, and the next `ListClusters` request goes to the URL of organization `org1`
with the header `Authorization: Bearer key1`. -/
theorem SetCredential_keeps_old_credential :
    ((NewClusterServiceCloud scenario.cred1).SetCredential scenario.cred2).cred = scenario.cred1 ∧
    (((NewClusterServiceCloud scenario.cred1).SetCredential scenario.cred2).ListClusters
        scenario.runtime).sent.Url =
      "https://cockroachlabs.cloud/api/v1/orgs/org1/clusters?active=true" ∧
    (((NewClusterServiceCloud scenario.cred1).SetCredential scenario.cred2).ListClusters
        scenario.runtime).sent.Header.lookup "Authorization" = some "Bearer key1" := by
  refine ⟨rfl, ?_, ?_⟩ <;> decide

end crdb

namespace crdb

/-- `SetCredential` leaves every client as it was. -/
theorem SetCredential_noop (c : ClusterServiceCloud) (cred : Credential) :
    c.SetCredential cred = c := rfl

/-- The claim of C9 fails at `GetClusterCertificate`: the certificate request of a
client built for `cred1` carries no header at all, so neither `Accept` nor
`Authorization`. -/
theorem GetClusterCertificate_sends_no_auth_header :
    ((NewClusterServiceCloud scenario.cred1).GetClusterCertificate scenario.runtime "c1").sent.Header
      = [] ∧
    ¬ carriesAuth
      ((NewClusterServiceCloud scenario.cred1).GetClusterCertificate scenario.runtime "c1").sent
      scenario.cred1 := by
  refine ⟨by decide, ?_⟩
  rintro ⟨h, -⟩
  revert h
  decide

theorem ListClusters_sent (rt : Runtime) (c : ClusterServiceCloud) :
    (c.ListClusters rt).sent =
      { Url := crdbUrlPrefix c.cred.OrgID ++ "?active=true", Method := "GET",
        Header := [("Accept", "application/json"), ("Authorization", "Bearer " ++ c.cred.APIKey)],
        Data := none } := by
  unfold ClusterServiceCloud.ListClusters
  simp only []
  split_ifs <;>
    simp [ClusterServiceCloud.setAuthHeader, ClusterServiceCloud.afterCall, SuperAgent.Set,
      SuperAgent.Get, SuperAgent.ClearSuperAgent, GoMap.set]

theorem GetCluster_sent (rt : Runtime) (c : ClusterServiceCloud) (clusterID : String) :
    (c.GetCluster rt clusterID).sent =
      { Url := crdbUrlPrefix c.cred.OrgID ++ "/" ++ clusterID, Method := "GET",
        Header := [("Accept", "application/json"), ("Authorization", "Bearer " ++ c.cred.APIKey)],
        Data := none } := by
  unfold ClusterServiceCloud.GetCluster
  simp only []
  split_ifs <;>
    simp [ClusterServiceCloud.setAuthHeader, ClusterServiceCloud.afterCall, SuperAgent.Set,
      SuperAgent.Get, SuperAgent.ClearSuperAgent, GoMap.set]

theorem ListUsers_sent (rt : Runtime) (c : ClusterServiceCloud) (clusterID : String) :
    (c.ListUsers rt clusterID).sent =
      { Url := crdbUrlPrefix c.cred.OrgID ++ "/" ++ clusterID ++ "/sql-users", Method := "GET",
        Header := [("Accept", "application/json"), ("Authorization", "Bearer " ++ c.cred.APIKey)],
        Data := none } := by
  unfold ClusterServiceCloud.ListUsers
  simp only []
  split_ifs <;>
    simp [ClusterServiceCloud.setAuthHeader, ClusterServiceCloud.afterCall, SuperAgent.Set,
      SuperAgent.Get, SuperAgent.ClearSuperAgent, GoMap.set]

theorem DeleteUser_sent (rt : Runtime) (c : ClusterServiceCloud) (clusterID userName : String) :
    (c.DeleteUser rt clusterID userName).sent =
      { Url := crdbUrlPrefix c.cred.OrgID ++ "/" ++ clusterID ++ "/sql-users/" ++ userName,
        Method := "DELETE",
        Header := [("Accept", "application/json"), ("Authorization", "Bearer " ++ c.cred.APIKey)],
        Data := none } := by
  unfold ClusterServiceCloud.DeleteUser
  simp only []
  split_ifs <;>
    simp [ClusterServiceCloud.setAuthHeader, ClusterServiceCloud.afterCall, SuperAgent.Set,
      SuperAgent.Delete, SuperAgent.ClearSuperAgent, GoMap.set]

theorem GetClusterCertificate_sent (rt : Runtime) (c : ClusterServiceCloud) (clusterID : String) :
    (c.GetClusterCertificate rt clusterID).sent =
      { Url := clusterCertUrl clusterID, Method := "GET", Header := [], Data := none } := by
  unfold ClusterServiceCloud.GetClusterCertificate
  simp only []
  split_ifs <;> simp [SuperAgent.Get, SuperAgent.ClearSuperAgent]

/-- What `CreateUser` dispatches and returns when it does not panic. -/
theorem CreateUser_some (rt : Runtime) (c : ClusterServiceCloud) (clusterID : String)
    (call : Call SqlUser) (h : c.CreateUser rt clusterID = some call) :
    ∃ pwd, generatePassword rt.rnd rt.shuf = some pwd ∧
      call.sent =
        { Url := crdbUrlPrefix c.cred.OrgID ++ "/" ++ clusterID ++ "/sql-users",
          Method := "POST",
          Header := [("Accept", "application/json"),
            ("Authorization", "Bearer " ++ c.cred.APIKey),
            ("Content-Type", "application/json")],
          Data := some { User := { Name := "sql_user_" ++ toString rt.now }, Password := pwd } } ∧
      ∀ user, call.value = some user →
        user = { User := { Name := "sql_user_" ++ toString rt.now }, Password := pwd } := by
  unfold ClusterServiceCloud.CreateUser at h
  simp only [] at h
  rcases hp : generatePassword rt.rnd rt.shuf with _ | pwd
  · simp [hp] at h
  · simp only [hp] at h
    refine ⟨pwd, rfl, ?_⟩
    split_ifs at h <;> simp only [Option.some.injEq] at h <;> subst h <;>
      simp [ClusterServiceCloud.setAuthHeader, ClusterServiceCloud.afterCall, SuperAgent.Set,
        SuperAgent.Post, SuperAgent.Send, SuperAgent.ClearSuperAgent, GoMap.set]

/-- C9, amended. Each of the five operations on the organization's clusters,
`ListClusters`, `GetCluster`, `ListUsers`, `CreateUser` (whenever it gets to dispatch a
request) and `DeleteUser`, dispatches a request that carries `Accept: application/json`
and `Authorization: Bearer` followed by the API key of the client's credential;
`GetClusterCertificate` dispatches its request with no header. -/
theorem org_requests_carry_auth_headers (rt : Runtime) (c : ClusterServiceCloud)
    (clusterID userName : String) :
    carriesAuth (c.ListClusters rt).sent c.cred ∧
    carriesAuth (c.GetCluster rt clusterID).sent c.cred ∧
    carriesAuth (c.ListUsers rt clusterID).sent c.cred ∧
    (∀ call, c.CreateUser rt clusterID = some call → carriesAuth call.sent c.cred) ∧
    carriesAuth (c.DeleteUser rt clusterID userName).sent c.cred ∧
    (c.GetClusterCertificate rt clusterID).sent.Header = [] := by
  refine ⟨?_, ?_, ?_, ?_, ?_, ?_⟩
  · rw [ListClusters_sent]; simp [carriesAuth, List.lookup]
  · rw [GetCluster_sent]; simp [carriesAuth, List.lookup]
  · rw [ListUsers_sent]; simp [carriesAuth, List.lookup]
  · intro call h
    obtain ⟨pwd, -, hs, -⟩ := CreateUser_some rt c clusterID call h
    rw [hs]; simp [carriesAuth, List.lookup]
  · rw [DeleteUser_sent]; simp [carriesAuth, List.lookup]
  · rw [GetClusterCertificate_sent]

end crdb

namespace crdb

/-- Witness for C9: `CreateUser` of a client built for `cred1` dispatches a request, and
it carries both headers. -/
theorem org_requests_carry_auth_headers_witness :
    ∃ call, (NewClusterServiceCloud scenario.cred1).CreateUser scenario.runtime "c1" = some call ∧
      carriesAuth call.sent scenario.cred1 :=
  match h : (NewClusterServiceCloud scenario.cred1).CreateUser scenario.runtime "c1" with
  | some call =>
    ⟨call, rfl,
      (org_requests_carry_auth_headers scenario.runtime (NewClusterServiceCloud scenario.cred1)
        "c1" "sql_user_1").2.2.2.1 call h⟩
  | none => absurd (congrArg Option.isSome h) (by decide)

end crdb

/-! ## The Connection reconciler -/

namespace controllers
open crdb
variable {σ : Type}

theorem retrieve_cases (w : World σ) (sel : NamespacedName) :
    (∃ e ok, retrieveClientCredential w sel = (.error e, [.getSecret sel ok])) ∨
    (∃ c, retrieveClientCredential w sel = (.ok c, [.getSecret sel true])) := by
  unfold retrieveClientCredential
  rcases h : w.GetSecret sel with e | secret
  · exact Or.inl ⟨e, false, rfl⟩
  · by_cases hc : secret.Data.get "orgId" = "" ∨ secret.Data.get "apiKey" = ""
    · left; exact ⟨errorsNew "failed to retrieve a complete API Credential", true, by simp [hc]⟩
    · right; exact ⟨{ OrgID := secret.Data.get "orgId", APIKey := secret.Data.get "apiKey" }, by simp [hc]⟩

theorem removeSqlUser_cases (w : World σ) (service : σ) (id : String) (u : SqlUser) :
    ∃ s' ok, removeSqlUser w service id u = (s', [.deleteUser id u.User.Name ok]) := by
  unfold removeSqlUser
  rcases h : w.service.DeleteUser service id u.User.Name with ⟨s', _ | e⟩
  · exact ⟨s', true, rfl⟩
  · exact ⟨s', false, rfl⟩

theorem updateStatus_cases (w : World σ) (conn : CrdbDBaaSConnection) (status reason msg : String) :
    ∃ obj, obj.Status.Conditions = SetStatusCondition conn.Status.Conditions
          { Type_ := if status = "True" then "ReadyForBinding" else "NotReady",
            Status := status, Reason := reason, Message := msg } ∧
      obj.Status.CredentialsRef = conn.Status.CredentialsRef ∧
      obj.Status.ConnectionInfoRef = conn.Status.ConnectionInfoRef ∧
      ((w.UpdateConnectionStatus obj = none ∧
          updateStatus w conn status reason msg = (none, [.updateConnectionStatus obj true])) ∨
        (∃ err, w.UpdateConnectionStatus obj = some err ∧
          updateStatus w conn status reason msg = (some err, [.updateConnectionStatus obj false]))) := by
  unfold updateStatus
  simp only [ConditionTrue, ConnectionConditionReadyType, ConnectionConditionNotReadyType]
  by_cases hs : status = "True"
  · simp only [hs, if_true]
    split
    · next err h => refine ⟨_, ?_, ?_, ?_, Or.inr ⟨err, h, rfl⟩⟩ <;> rfl
    · next h => refine ⟨_, ?_, ?_, ?_, Or.inl ⟨h, rfl⟩⟩ <;> rfl
  · simp only [hs, if_false]
    split
    · next err h => refine ⟨_, ?_, ?_, ?_, Or.inr ⟨err, h, rfl⟩⟩ <;> rfl
    · next h => refine ⟨_, ?_, ?_, ?_, Or.inl ⟨h, rfl⟩⟩ <;> rfl

end controllers

namespace controllers
open crdb
variable {σ : Type}

/-- The six ways the second half of the Connection `Reconcile` can end, each with its
exact results and calls. -/
theorem provision_cases (w : World σ) (connection : CrdbDBaaSConnection) (inst : Instance)
    (service : σ) (t : List Event) :
    (∃ s, CrdbDBaaSConnectionReconciler.provision w connection inst service t =
        ⟨{ RequeueAfter := DefaultRetryDelay }, none,
          t ++ [.createUser connection.Spec.InstanceID none], some s⟩) ∨
    (∃ s u, CrdbDBaaSConnectionReconciler.provision w connection inst service t =
        ⟨{ RequeueAfter := DefaultRetryDelay }, none,
          t ++ [.createUser connection.Spec.InstanceID (some u),
                .getClusterCertificate connection.Spec.InstanceID none], some s⟩) ∨
    (∃ s u c ok, CrdbDBaaSConnectionReconciler.provision w connection inst service t =
        ⟨{ RequeueAfter := DefaultRetryDelay }, none,
          t ++ [.createUser connection.Spec.InstanceID (some u),
                .getClusterCertificate connection.Spec.InstanceID (some c),
                .createSecret (buildSecret connection u c) none,
                .deleteUser connection.Spec.InstanceID u.User.Name ok], some s⟩) ∨
    (∃ s u c sec ok, CrdbDBaaSConnectionReconciler.provision w connection inst service t =
        ⟨{ RequeueAfter := DefaultRetryDelay }, none,
          t ++ [.createUser connection.Spec.InstanceID (some u),
                .getClusterCertificate connection.Spec.InstanceID (some c),
                .createSecret (buildSecret connection u c) (some sec),
                .createConfigMap (buildConfigMap connection inst) none,
                .deleteUser connection.Spec.InstanceID u.User.Name ok], some s⟩) ∨
    (∃ s u c sec cm obj ok,
        obj.Status.Conditions = SetStatusCondition connection.Status.Conditions
          { Type_ := "ReadyForBinding", Status := "True", Reason := "Ready",
            Message := "Connection is ready" } ∧
        obj.Status.CredentialsRef = some { Name := sec.meta.Name } ∧
        obj.Status.ConnectionInfoRef = some { Name := cm.meta.Name } ∧
        CrdbDBaaSConnectionReconciler.provision w connection inst service t =
        ⟨{ Requeue := !ok }, none,
          t ++ [.createUser connection.Spec.InstanceID (some u),
                .getClusterCertificate connection.Spec.InstanceID (some c),
                .createSecret (buildSecret connection u c) (some sec),
                .createConfigMap (buildConfigMap connection inst) (some cm),
                .updateConnectionStatus obj ok], some s⟩) := by
  unfold CrdbDBaaSConnectionReconciler.provision
  rcases hcu : w.service.CreateUser service connection.Spec.InstanceID with ⟨s1, e | u⟩
  · exact Or.inl ⟨s1, rfl⟩
  right
  rcases hcert : w.service.GetClusterCertificate s1 connection.Spec.InstanceID with ⟨s2, e | c⟩
  · exact Or.inl ⟨s2, u, by simp [hcert]⟩
  right
  rcases hsec : w.CreateSecret (buildSecret connection u c) with e | sec
  · obtain ⟨s3, ok, hrm⟩ := removeSqlUser_cases w s2 connection.Spec.InstanceID u
    exact Or.inl ⟨s3, u, c, ok, by simp [hcert, hsec, hrm]⟩
  right
  rcases hcm : w.CreateConfigMap (buildConfigMap connection inst) with e | cm
  · obtain ⟨s3, ok, hrm⟩ := removeSqlUser_cases w s2 connection.Spec.InstanceID u
    exact Or.inl ⟨s3, u, c, sec, ok, by simp [hcert, hsec, hcm, hrm]⟩
  right
  obtain ⟨obj, h1, h2, h3, hup⟩ := updateStatus_cases w
    { connection with Status := { connection.Status with
        CredentialsRef := some { Name := sec.meta.Name },
        ConnectionInfoRef := some { Name := cm.meta.Name } } } "True" "Ready" "Connection is ready"
  rcases hup with ⟨_, hup⟩ | ⟨err, _, hup⟩
  · exact ⟨s2, u, c, sec, cm, obj, true, by simpa using h1, h2, h3,
      by simp [hcert, hsec, hcm, ConditionTrue, hup]⟩
  · exact ⟨s2, u, c, sec, cm, obj, false, by simpa using h1, h2, h3,
      by simp [hcert, hsec, hcm, ConditionTrue, hup]⟩

end controllers
namespace controllers
open crdb
variable {σ : Type}

/-- The first half of the Connection `Reconcile`: either it returns after lookups and
at most a status update that does not carry `ReadyForBinding=True`, or it hands a
fetched, not yet Ready Connection with its Instance and a client to `provision`. -/
theorem reconcile_cases (w : World σ) (cached : Option σ) (req : NamespacedName) :
    (∀ e ∈ (CrdbDBaaSConnectionReconciler.Reconcile w cached req).trace,
      e.isLookup = true ∨ ∃ obj ok, e = .updateConnectionStatus obj ok ∧
        hasCondition obj.Status.Conditions "ReadyForBinding" "True" = false) ∨
    (∃ connection inventory inst service t,
      w.GetConnection req = .ok connection ∧
      hasCondition connection.Status.Conditions "ReadyForBinding" "True" = false ∧
      w.GetInventory { Namespace := connection.Spec.InventoryRef.Namespace,
                       Name := connection.Spec.InventoryRef.Name } = .ok inventory ∧
      getClusterInstance inventory connection.Spec.InstanceID = .ok inst ∧
      (∀ e ∈ t, e.isLookup = true) ∧
      CrdbDBaaSConnectionReconciler.Reconcile w cached req =
        CrdbDBaaSConnectionReconciler.provision w connection inst service t) := by
  unfold CrdbDBaaSConnectionReconciler.Reconcile
  rcases hget : w.GetConnection req with err | connection
  · left
    by_cases hnf : err.notFound = true <;> simp [hnf, Event.isLookup]
  by_cases hready : hasCondition connection.Status.Conditions "ReadyForBinding" "True" = true
  · left
    have : connection.Status.Conditions.any (fun cond =>
        cond.Type_ == ConnectionConditionReadyType && cond.Status == ConditionTrue) = true := hready
    simp [this, Event.isLookup]
  have hready' : hasCondition connection.Status.Conditions "ReadyForBinding" "True" = false := by
    simpa using hready
  have hany : connection.Status.Conditions.any (fun cond =>
      cond.Type_ == ConnectionConditionReadyType && cond.Status == ConditionTrue) = false := hready'
  simp only [hany]
  rcases hinv : w.GetInventory ⟨connection.Spec.InventoryRef.Namespace,
      connection.Spec.InventoryRef.Name⟩ with err | inventory
  · left
    by_cases hnf : err.notFound = true <;> simp [hnf, Event.isLookup]
  simp only [hinv]
  rcases hinst : getClusterInstance inventory connection.Spec.InstanceID with err | inst
  · left
    obtain ⟨obj, h1, _, _, hup⟩ := updateStatus_cases w connection "False" "InventoryNotReady"
      "Wait for Inventory"
    have hobj : hasCondition obj.Status.Conditions "ReadyForBinding" "True" = false := by
      rw [h1]
      exact SetStatusCondition_other _ _ _ _ (by decide) hready'
    rcases hup with ⟨_, hup⟩ | ⟨e', _, hup⟩ <;>
      simp [ConditionFalse, ConnectionConditionNotReadyReason,
        ConnectionConditionNotReadyReasonMsg, hup, Event.isLookup, hobj]
  simp only [hinst]
  rcases retrieve_cases w ⟨inventory.Spec.CredentialsRef.Namespace,
      inventory.Spec.CredentialsRef.Name⟩ with ⟨e, ok, hr⟩ | ⟨c, hr⟩
  · cases cached with
    | none =>
      left
      simp [CreateClusterServiceClient, hr, Event.isLookup]
    | some service =>
      right
      exact ⟨connection, inventory, inst, service,
        [.getConnection req true, .getInventory ⟨connection.Spec.InventoryRef.Namespace,
          connection.Spec.InventoryRef.Name⟩ true, .getSecret ⟨inventory.Spec.CredentialsRef.Namespace,
          inventory.Spec.CredentialsRef.Name⟩ ok], rfl, hready', hinv, hinst,
        by simp [Event.isLookup],
        by simp [updateClusterServiceCloudCredential, hr]⟩
  · right
    cases cached with
    | none =>
      exact ⟨connection, inventory, inst, w.NewClusterServiceCloud c,
        [.getConnection req true, .getInventory ⟨connection.Spec.InventoryRef.Namespace,
          connection.Spec.InventoryRef.Name⟩ true, .getSecret ⟨inventory.Spec.CredentialsRef.Namespace,
          inventory.Spec.CredentialsRef.Name⟩ true], rfl, hready', hinv, hinst,
        by simp [Event.isLookup],
        by simp [CreateClusterServiceClient, hr]⟩
    | some service =>
      exact ⟨connection, inventory, inst, w.service.SetCredential service c,
        [.getConnection req true, .getInventory ⟨connection.Spec.InventoryRef.Namespace,
          connection.Spec.InventoryRef.Name⟩ true, .getSecret ⟨inventory.Spec.CredentialsRef.Namespace,
          inventory.Spec.CredentialsRef.Name⟩ true, .setCredential c], rfl, hready',
        hinv, hinst,
        by simp [Event.isLookup],
        by simp [updateClusterServiceCloudCredential, hr]⟩

end controllers
namespace controllers

open crdb

variable {σ : Type}

/-- C1. Idempotency gate: when the fetched Connection has a status condition of type
`ReadyForBinding` with status `True`, the Connection `Reconcile` makes no call after
the fetch of the Connection itself: no REST call, no create of a Secret or ConfigMap,
no status update; it returns the empty result and no error, and leaves the cached
client as it was. -/
theorem reconcile_ready_connection_makes_no_call (w : World σ) (cached : Option σ)
    (req : NamespacedName) (connection : CrdbDBaaSConnection)
    (hget : w.GetConnection req = .ok connection)
    (hready : ∃ cond ∈ connection.Status.Conditions,
      cond.Type_ = "ReadyForBinding" ∧ cond.Status = "True") :
    (CrdbDBaaSConnectionReconciler.Reconcile w cached req).trace = [.getConnection req true] ∧
    (∀ e ∈ (CrdbDBaaSConnectionReconciler.Reconcile w cached req).trace,
      e.isRestCall = false ∧ e.isCreate = false ∧ e.isStatusUpdate = false) ∧
    (CrdbDBaaSConnectionReconciler.Reconcile w cached req).result =
      { Requeue := false, RequeueAfter := 0 } ∧
    (CrdbDBaaSConnectionReconciler.Reconcile w cached req).err = none ∧
    (CrdbDBaaSConnectionReconciler.Reconcile w cached req).ClusterServiceCloud = cached := by
  have hany : connection.Status.Conditions.any
      (fun cond => cond.Type_ == ConnectionConditionReadyType && cond.Status == ConditionTrue)
      = true := by
    obtain ⟨cond, hmem, ht, hs⟩ := hready
    rw [List.any_eq_true]
    exact ⟨cond, hmem, by simp [ht, hs, ConnectionConditionReadyType, ConditionTrue]⟩
  have hrun : CrdbDBaaSConnectionReconciler.Reconcile w cached req =
      ⟨{}, none, [.getConnection req true], cached⟩ := by
    unfold CrdbDBaaSConnectionReconciler.Reconcile
    simp only [hget, hany, if_true]
  rw [hrun]
  simp [Event.isRestCall, Event.isCreate, Event.isStatusUpdate]

end controllers

namespace controllers

/-- Witness for C1: the Connection of `readyWorld` carries `ReadyForBinding=True`. -/
theorem reconcile_ready_connection_makes_no_call_witness :
    (CrdbDBaaSConnectionReconciler.Reconcile scenario.readyWorld none scenario.req).trace =
      [.getConnection scenario.req true] ∧
    (∀ e ∈ (CrdbDBaaSConnectionReconciler.Reconcile scenario.readyWorld none scenario.req).trace,
      e.isRestCall = false ∧ e.isCreate = false ∧ e.isStatusUpdate = false) ∧
    (CrdbDBaaSConnectionReconciler.Reconcile scenario.readyWorld none scenario.req).result =
      { Requeue := false, RequeueAfter := 0 } ∧
    (CrdbDBaaSConnectionReconciler.Reconcile scenario.readyWorld none scenario.req).err = none ∧
    (CrdbDBaaSConnectionReconciler.Reconcile scenario.readyWorld none
      scenario.req).ClusterServiceCloud = none :=
  reconcile_ready_connection_makes_no_call scenario.readyWorld none scenario.req
    (scenario.connection [scenario.ready]) rfl
    ⟨scenario.ready, List.mem_singleton.mpr rfl, rfl, rfl⟩

end controllers

namespace controllers
open crdb
variable {σ : Type}

/-- A secret with a non-empty `orgId` and a non-empty `apiKey` resolves to its
Credential, after one successful `Get`. -/
theorem retrieve_complete (w : World σ) (sel : NamespacedName) (secret : Secret)
    (hs : w.GetSecret sel = .ok secret) (h1 : secret.Data.get "orgId" ≠ "")
    (h2 : secret.Data.get "apiKey" ≠ "") :
    retrieveClientCredential w sel =
      (.ok { OrgID := secret.Data.get "orgId", APIKey := secret.Data.get "apiKey" },
       [.getSecret sel true]) := by
  unfold retrieveClientCredential
  simp [hs, h1, h2]

/-- A fetched, not yet Ready Connection whose Instance resolves, with a client in the
cache or a complete credential secret, reaches the second half of `Reconcile` after
lookups only. -/
theorem reconcile_reaches_provision (w : World σ) (cached : Option σ) (req : NamespacedName)
    (connection : CrdbDBaaSConnection) (inventory : CrdbDBaaSInventory) (inst : Instance)
    (hget : w.GetConnection req = .ok connection)
    (hnot : hasCondition connection.Status.Conditions "ReadyForBinding" "True" = false)
    (hinv : w.GetInventory ⟨connection.Spec.InventoryRef.Namespace,
      connection.Spec.InventoryRef.Name⟩ = .ok inventory)
    (hinst : getClusterInstance inventory connection.Spec.InstanceID = .ok inst)
    (hcred : cached = none → ∃ secret,
      w.GetSecret ⟨inventory.Spec.CredentialsRef.Namespace,
        inventory.Spec.CredentialsRef.Name⟩ = .ok secret ∧
      secret.Data.get "orgId" ≠ "" ∧ secret.Data.get "apiKey" ≠ "") :
    ∃ service t, (∀ e ∈ t, e.isLookup = true) ∧
      CrdbDBaaSConnectionReconciler.Reconcile w cached req =
        CrdbDBaaSConnectionReconciler.provision w connection inst service t := by
  have hany : connection.Status.Conditions.any (fun cond =>
      cond.Type_ == ConnectionConditionReadyType && cond.Status == ConditionTrue) = false := hnot
  unfold CrdbDBaaSConnectionReconciler.Reconcile
  simp only [hget, hany, hinv, hinst]
  cases cached with
  | none =>
    obtain ⟨secret, hs, h1, h2⟩ := hcred rfl
    have hr := retrieve_complete w _ secret hs h1 h2
    exact ⟨w.NewClusterServiceCloud
        { OrgID := secret.Data.get "orgId", APIKey := secret.Data.get "apiKey" },
      [.getConnection req true, .getInventory ⟨connection.Spec.InventoryRef.Namespace,
        connection.Spec.InventoryRef.Name⟩ true, .getSecret ⟨inventory.Spec.CredentialsRef.Namespace,
        inventory.Spec.CredentialsRef.Name⟩ true], by simp [Event.isLookup],
      by simp [CreateClusterServiceClient, hr]⟩
  | some service =>
    rcases retrieve_cases w ⟨inventory.Spec.CredentialsRef.Namespace,
        inventory.Spec.CredentialsRef.Name⟩ with ⟨e, ok, hr⟩ | ⟨c, hr⟩
    · exact ⟨service, [.getConnection req true, .getInventory ⟨connection.Spec.InventoryRef.Namespace,
          connection.Spec.InventoryRef.Name⟩ true, .getSecret ⟨inventory.Spec.CredentialsRef.Namespace,
          inventory.Spec.CredentialsRef.Name⟩ ok], by simp [Event.isLookup],
        by simp [updateClusterServiceCloudCredential, hr]⟩
    · exact ⟨w.service.SetCredential service c,
        [.getConnection req true, .getInventory ⟨connection.Spec.InventoryRef.Namespace,
          connection.Spec.InventoryRef.Name⟩ true, .getSecret ⟨inventory.Spec.CredentialsRef.Namespace,
          inventory.Spec.CredentialsRef.Name⟩ true, .setCredential c], by simp [Event.isLookup],
        by simp [updateClusterServiceCloudCredential, hr]⟩

/-- The second half of the Connection `Reconcile` when each of its five calls succeeds:
the calls it makes, the object it commits, and its results. -/
theorem provision_success (w : World σ) (connection : CrdbDBaaSConnection) (inst : Instance)
    (service s1 s2 : σ) (t : List Event) (u : SqlUser) (c : ClusterCertificate)
    (sec : Secret) (cm : ConfigMap)
    (hcu : w.service.CreateUser service connection.Spec.InstanceID = (s1, .ok u))
    (hcert : w.service.GetClusterCertificate s1 connection.Spec.InstanceID = (s2, .ok c))
    (hsec : w.CreateSecret (buildSecret connection u c) = .ok sec)
    (hcm : w.CreateConfigMap (buildConfigMap connection inst) = .ok cm)
    (hupd : ∀ obj, w.UpdateConnectionStatus obj = none) :
    ∃ obj : CrdbDBaaSConnection,
      obj.Kind = connection.Kind ∧ obj.APIVersion = connection.APIVersion ∧
      obj.meta = connection.meta ∧ obj.Spec = connection.Spec ∧
      obj.Status.CredentialsRef = some { Name := sec.meta.Name } ∧
      obj.Status.ConnectionInfoRef = some { Name := cm.meta.Name } ∧
      obj.Status.Conditions = SetStatusCondition connection.Status.Conditions
        { Type_ := "ReadyForBinding", Status := "True", Reason := "Ready",
          Message := "Connection is ready" } ∧
      CrdbDBaaSConnectionReconciler.provision w connection inst service t =
        ⟨{}, none,
          t ++ [.createUser connection.Spec.InstanceID (some u),
                .getClusterCertificate connection.Spec.InstanceID (some c),
                .createSecret (buildSecret connection u c) (some sec),
                .createConfigMap (buildConfigMap connection inst) (some cm),
                .updateConnectionStatus obj true], some s2⟩ := by
  refine ⟨{ connection with Status := { connection.Status with
      CredentialsRef := some { Name := sec.meta.Name },
      ConnectionInfoRef := some { Name := cm.meta.Name },
      Conditions := SetStatusCondition connection.Status.Conditions
        { Type_ := "ReadyForBinding", Status := "True", Reason := "Ready",
          Message := "Connection is ready" } } }, rfl, rfl, rfl, rfl, rfl, rfl, rfl, ?_⟩
  unfold CrdbDBaaSConnectionReconciler.provision
  simp [hcu, hcert, hsec, hcm, updateStatus, hupd, ConditionTrue, ConnectionConditionReadyType]

/-- C4. Compensation on Secret failure: in a run in which `CreateUser` returns the user
`u`, `GetClusterCertificate` succeeds and the Secret create fails, `DeleteUser` is called
exactly once, with the Connection's instanceID and the name of `u`; no ConfigMap create
is attempted and no status update is made; `Reconcile` returns `RequeueAfter` of 10
seconds and no error. Nothing is assumed of the outcome `ok` of `DeleteUser`. -/
theorem secret_failure_deletes_user_once (w : World σ) (cached : Option σ)
    (req : NamespacedName) (connection : CrdbDBaaSConnection) (u : SqlUser)
    (hget : w.GetConnection req = .ok connection)
    (hcu : Event.createUser connection.Spec.InstanceID (some u) ∈
      (CrdbDBaaSConnectionReconciler.Reconcile w cached req).trace)
    (_hcert : ∃ id c, Event.getClusterCertificate id (some c) ∈
      (CrdbDBaaSConnectionReconciler.Reconcile w cached req).trace)
    (hsec : ∃ s, Event.createSecret s none ∈
      (CrdbDBaaSConnectionReconciler.Reconcile w cached req).trace) :
    (∃ ok, (CrdbDBaaSConnectionReconciler.Reconcile w cached req).trace.filter Event.isDeleteUser =
      [.deleteUser connection.Spec.InstanceID u.User.Name ok]) ∧
    (∀ m r, Event.createConfigMap m r ∉
      (CrdbDBaaSConnectionReconciler.Reconcile w cached req).trace) ∧
    (∀ e ∈ (CrdbDBaaSConnectionReconciler.Reconcile w cached req).trace,
      e.isStatusUpdate = false) ∧
    (CrdbDBaaSConnectionReconciler.Reconcile w cached req).result =
      { Requeue := false, RequeueAfter := 10 * 1000000000 } ∧
    (CrdbDBaaSConnectionReconciler.Reconcile w cached req).err = none := by
  rcases reconcile_cases w cached req with hpre |
    ⟨connection', inventory', inst, service, t, hget', -, -, -, ht, hrun⟩
  · exfalso
    rcases hpre _ hcu with h | ⟨o, ok, h, -⟩
    · simp [Event.isLookup] at h
    · cases h
  obtain rfl : connection' = connection := by
    rw [hget] at hget'; injection hget' with h; exact h.symm
  obtain ⟨s0, hsec⟩ := hsec
  rw [hrun] at hcu hsec ⊢
  have htl : ∀ e ∈ t, e.isDeleteUser = false ∧ e.isStatusUpdate = false := fun e he => by
    have := ht e he
    cases e <;> simp_all [Event.isLookup, Event.isDeleteUser, Event.isStatusUpdate]
  have htc : ∀ id x, Event.createUser id x ∉ t := fun id x hm => by
    have := ht _ hm
    simp [Event.isLookup] at this
  have hts : ∀ s x, Event.createSecret s x ∉ t := fun s x hm => by
    have := ht _ hm
    simp [Event.isLookup] at this
  have htm : ∀ m x, Event.createConfigMap m x ∉ t := fun s x hm => by
    have := ht _ hm
    simp [Event.isLookup] at this
  have htf : t.filter Event.isDeleteUser = [] := by
    rw [List.filter_eq_nil_iff]
    intro e he
    simp [(htl e he).1]
  rcases provision_cases w connection' inst service t with
    ⟨s, h⟩ | ⟨s, u', h⟩ | ⟨s, u', c, ok, h⟩ | ⟨s, u', c, sec, ok, h⟩ |
    ⟨s, u', c, sec, cm, o, ok, hc, hcr, hci, h⟩
  all_goals rw [h] at hcu hsec ⊢
  all_goals simp only [List.mem_append, List.mem_cons, List.mem_singleton, List.not_mem_nil,
    or_false, htc, hts, false_or, reduceCtorEq, Event.createUser.injEq,
    Event.createSecret.injEq, and_false, true_and, Option.some.injEq] at hcu hsec
  subst hcu
  refine ⟨⟨ok, by simp [List.filter_append, htf, Event.isDeleteUser, List.filter]⟩, ?_, ?_, ?_, rfl⟩
  · intro m r hm
    simp [htm] at hm
  · intro e he
    simp only [List.mem_append] at he
    rcases he with he | he
    · exact (htl e he).2
    · revert e; simp [Event.isStatusUpdate]
  · simp [DefaultRetryDelay]

end controllers

namespace controllers

/-- Witness for C4: Scenario C with a cached client, where `DeleteUser` fails too. -/
theorem secret_failure_deletes_user_once_witness :
    (∃ ok, (CrdbDBaaSConnectionReconciler.Reconcile scenario.secretFailureWorld (some ())
        scenario.req).trace.filter Event.isDeleteUser = [.deleteUser "c1" "sql_user_7" ok]) ∧
    (∀ m r, Event.createConfigMap m r ∉
      (CrdbDBaaSConnectionReconciler.Reconcile scenario.secretFailureWorld (some ())
        scenario.req).trace) ∧
    (∀ e ∈ (CrdbDBaaSConnectionReconciler.Reconcile scenario.secretFailureWorld (some ())
        scenario.req).trace, e.isStatusUpdate = false) ∧
    (CrdbDBaaSConnectionReconciler.Reconcile scenario.secretFailureWorld (some ())
        scenario.req).result = { Requeue := false, RequeueAfter := 10 * 1000000000 } ∧
    (CrdbDBaaSConnectionReconciler.Reconcile scenario.secretFailureWorld (some ())
        scenario.req).err = none :=
  secret_failure_deletes_user_once scenario.secretFailureWorld (some ()) scenario.req
    (scenario.connection []) scenario.sqlUser rfl (by decide)
    ⟨"c1", scenario.caCert, by decide⟩ ⟨scenario.userSecret, by decide⟩

end controllers

namespace controllers
open crdb
variable {σ : Type}

/-- C3. Readiness invariant: in every run of the Connection `Reconcile`, whatever the
external calls answer, a status update whose object carries `ReadyForBinding=True` comes
after a successful `CreateUser`, a successful `GetClusterCertificate`, a successful
Secret create and a successful ConfigMap create of the same run; and a run in which one
of these four steps failed issues no such update. -/
theorem ready_update_only_after_all_steps_succeeded (w : World σ) (cached : Option σ)
    (req : NamespacedName) :
    (∀ pre e post, (CrdbDBaaSConnectionReconciler.Reconcile w cached req).trace = pre ++ e :: post →
      e.isReadyUpdate = true →
        (∃ id u, Event.createUser id (some u) ∈ pre) ∧
        (∃ id c, Event.getClusterCertificate id (some c) ∈ pre) ∧
        (∃ s s', Event.createSecret s (some s') ∈ pre) ∧
        (∃ m m', Event.createConfigMap m (some m') ∈ pre)) ∧
    ((∃ e ∈ (CrdbDBaaSConnectionReconciler.Reconcile w cached req).trace, e.isFailedStep = true) →
      ∀ e ∈ (CrdbDBaaSConnectionReconciler.Reconcile w cached req).trace,
        e.isReadyUpdate = false) := by
  have hlook : ∀ e : Event, e.isLookup = true → e.isReadyUpdate = false ∧ e.isFailedStep = false := by
    intro e he
    cases e <;> simp_all [Event.isLookup, Event.isReadyUpdate, Event.isFailedStep]
  rcases reconcile_cases w cached req with hpre | ⟨connection, inventory, inst, service, t, -, -, -, -, ht, hrun⟩
  · refine no_ready_update_invariant _ _ ?_
    intro e he
    rcases hpre e he with h | ⟨obj, ok, rfl, h⟩
    · exact (hlook e h).1
    · simpa [Event.isReadyUpdate] using h
  rw [hrun]
  have ht1 : ∀ e ∈ t, e.isReadyUpdate = false := fun e he => (hlook e (ht e he)).1
  have ht2 : ∀ e ∈ t, e.isFailedStep = false := fun e he => (hlook e (ht e he)).2
  rcases provision_cases w connection inst service t with
    ⟨s, h⟩ | ⟨s, u, h⟩ | ⟨s, u, c, ok, h⟩ | ⟨s, u, c, sec, ok, h⟩ |
    ⟨s, u, c, sec, cm, obj, ok, hc, -, -, h⟩
  · rw [h]
    refine no_ready_update_invariant _ _ ?_
    intro e he
    rw [List.mem_append] at he
    rcases he with he | he
    · exact ht1 e he
    · revert e; simp [Event.isReadyUpdate]
  · rw [h]
    refine no_ready_update_invariant _ _ ?_
    intro e he
    rw [List.mem_append] at he
    rcases he with he | he
    · exact ht1 e he
    · revert e; simp [Event.isReadyUpdate]
  · rw [h]
    refine no_ready_update_invariant _ _ ?_
    intro e he
    rw [List.mem_append] at he
    rcases he with he | he
    · exact ht1 e he
    · revert e; simp [Event.isReadyUpdate]
  · rw [h]
    refine no_ready_update_invariant _ _ ?_
    intro e he
    rw [List.mem_append] at he
    rcases he with he | he
    · exact ht1 e he
    · revert e; simp [Event.isReadyUpdate]
  · rw [h]
    constructor
    · intro pre e post htr he
      have hsplit := append_singleton_split (fun e => e.isReadyUpdate = true)
        (t ++ [.createUser connection.Spec.InstanceID (some u),
              .getClusterCertificate connection.Spec.InstanceID (some c),
              .createSecret (buildSecret connection u c) (some sec),
              .createConfigMap (buildConfigMap connection inst) (some cm)])
        pre post (.updateConnectionStatus obj ok) e (by rw [← htr]; simp)
        (by
          intro y hy
          rw [List.mem_append] at hy
          rcases hy with hy | hy
          · simp [ht1 y hy]
          · revert y; simp [Event.isReadyUpdate])
        he
      rw [hsplit.1]
      exact ⟨⟨connection.Spec.InstanceID, u, by simp⟩, ⟨connection.Spec.InstanceID, c, by simp⟩,
        ⟨buildSecret connection u c, sec, by simp⟩, ⟨buildConfigMap connection inst, cm, by simp⟩⟩
    · rintro ⟨e, he, hf⟩
      exfalso
      rw [List.mem_append] at he
      rcases he with he | he
      · rw [ht2 e he] at hf; cases hf
      · simp only [List.mem_cons, List.mem_singleton, List.not_mem_nil, or_false] at he
        rcases he with rfl | rfl | rfl | rfl | rfl <;> simp [Event.isFailedStep] at hf

end controllers

namespace controllers

/-- Witness for C3: in Scenario D the status update that carries `ReadyForBinding=True`
is the last call, and the four successful steps come before it. -/
theorem ready_update_only_after_all_steps_succeeded_witness :
    (CrdbDBaaSConnectionReconciler.Reconcile scenario.successWorld none scenario.req).trace =
      scenario.successCalls ++ [.updateConnectionStatus scenario.committed true] ∧
    (∃ id u, Event.createUser id (some u) ∈ scenario.successCalls) ∧
    (∃ id c, Event.getClusterCertificate id (some c) ∈ scenario.successCalls) ∧
    (∃ s s', Event.createSecret s (some s') ∈ scenario.successCalls) ∧
    (∃ m m', Event.createConfigMap m (some m') ∈ scenario.successCalls) :=
  ⟨by decide,
    (ready_update_only_after_all_steps_succeeded scenario.successWorld none scenario.req).1
      scenario.successCalls (.updateConnectionStatus scenario.committed true) []
      (by decide) (by decide)⟩

end controllers

namespace controllers
open crdb
variable {σ : Type}

/-- What `getClusterInstance` answers: the first Instance with the wanted ID when the
Inventory carries `SpecSynced=True`, and an error in every other case. -/
theorem getClusterInstance_ok_iff (inventory : CrdbDBaaSInventory) (instanceID : String)
    (inst : Instance) :
    getClusterInstance inventory instanceID = .ok inst ↔
      (∃ c ∈ inventory.Status.Conditions, c.Type_ = "SpecSynced" ∧ c.Status = "True") ∧
      ∃ pre post, inventory.Status.Instances = pre ++ inst :: post ∧
        inst.InstanceID = instanceID ∧ ∀ j ∈ pre, j.InstanceID ≠ instanceID := by
  unfold getClusterInstance
  split
  · next hc =>
    rw [List.find?_eq_none] at hc
    simp only [reduceCtorEq, false_iff, not_and]
    rintro ⟨c, hm, h1, h2⟩
    exact absurd (by simp [h1, h2, ConditionTrue]) (hc c hm)
  · next c hc =>
    have hsync : ∃ c ∈ inventory.Status.Conditions, c.Type_ = "SpecSynced" ∧ c.Status = "True" := by
      rw [List.find?_eq_some] at hc
      obtain ⟨hp, as, bs, hl, -⟩ := hc
      refine ⟨c, by rw [hl]; simp, ?_⟩
      simpa [ConditionTrue] using hp
    simp only [hsync, true_and]
    split
    · next i hi =>
      rw [List.find?_eq_some] at hi
      obtain ⟨hp, as, bs, hl, hnot⟩ := hi
      simp only [Except.ok.injEq]
      constructor
      · rintro rfl
        exact ⟨as, bs, hl, by simpa using hp, fun j hj => by simpa using hnot j hj⟩
      · rintro ⟨pre, post, hl', hid, hpre⟩
        have hnot' : ∀ j ∈ as, ¬ j.InstanceID = instanceID := fun j hj => by simpa using hnot j hj
        have hid' : i.InstanceID = instanceID := by simpa using hp
        exact first_match_unique (fun j => j.InstanceID = instanceID) _ _ _ _ _ _
          (hl.symm.trans hl') hnot' hid' hpre hid
    · next hi =>
      rw [List.find?_eq_none] at hi
      simp only [reduceCtorEq, false_iff]
      rintro ⟨pre, post, hl, hid, -⟩
      exact hi inst (by rw [hl]; simp) (by simp [hid])

end controllers

namespace controllers
open crdb
variable {σ : Type}

theorem getClusterInstance_isOk_iff (inventory : CrdbDBaaSInventory) (instanceID : String) :
    (∃ inst, getClusterInstance inventory instanceID = .ok inst) ↔
      (∃ c ∈ inventory.Status.Conditions, c.Type_ = "SpecSynced" ∧ c.Status = "True") ∧
      ∃ i ∈ inventory.Status.Instances, i.InstanceID = instanceID := by
  constructor
  · rintro ⟨inst, h⟩
    obtain ⟨hs, pre, post, hl, hid, -⟩ := (getClusterInstance_ok_iff _ _ _).1 h
    exact ⟨hs, inst, by rw [hl]; simp, hid⟩
  · rintro ⟨hs, i, hm, hid⟩
    have hsome : (inventory.Status.Instances.find? (fun j => j.InstanceID == instanceID)).isSome := by
      rw [List.find?_isSome]
      exact ⟨i, hm, by simp [hid]⟩
    obtain ⟨a, ha⟩ := Option.isSome_iff_exists.1 hsome
    refine ⟨a, (getClusterInstance_ok_iff _ _ _).2 ⟨hs, ?_⟩⟩
    rw [List.find?_eq_some] at ha
    obtain ⟨hp, as, bs, hl, hnot⟩ := ha
    exact ⟨as, bs, hl, by simpa using hp, fun j hj => by simpa using hnot j hj⟩

/-- C5. Instance resolution. `getClusterInstance` succeeds exactly when the Inventory
has a condition `SpecSynced` with status `True` and some Instance has the wanted ID, and
it then returns the first such Instance in list order. For a fetched, not yet Ready
Connection whose Inventory is found, when the condition is missing or no Instance has
the Connection's instanceID, `Reconcile` makes one status update, whose object carries
a condition of type `NotReady` with reason `InventoryNotReady`, makes no REST call,
creates no object and returns an error. -/
theorem instance_resolution_failure_marks_not_ready (w : World σ) (cached : Option σ)
    (req : NamespacedName) (connection : CrdbDBaaSConnection) (inventory : CrdbDBaaSInventory)
    (hget : w.GetConnection req = .ok connection)
    (hnot : ¬ ∃ cond ∈ connection.Status.Conditions,
      cond.Type_ = "ReadyForBinding" ∧ cond.Status = "True")
    (hinv : w.GetInventory ⟨connection.Spec.InventoryRef.Namespace,
      connection.Spec.InventoryRef.Name⟩ = .ok inventory) :
    ((∃ inst, getClusterInstance inventory connection.Spec.InstanceID = .ok inst) ↔
      (∃ c ∈ inventory.Status.Conditions, c.Type_ = "SpecSynced" ∧ c.Status = "True") ∧
      ∃ i ∈ inventory.Status.Instances, i.InstanceID = connection.Spec.InstanceID) ∧
    (∀ inst, getClusterInstance inventory connection.Spec.InstanceID = .ok inst ↔
      (∃ c ∈ inventory.Status.Conditions, c.Type_ = "SpecSynced" ∧ c.Status = "True") ∧
      ∃ pre post, inventory.Status.Instances = pre ++ inst :: post ∧
        inst.InstanceID = connection.Spec.InstanceID ∧
        ∀ j ∈ pre, j.InstanceID ≠ connection.Spec.InstanceID) ∧
    (((¬ ∃ c ∈ inventory.Status.Conditions, c.Type_ = "SpecSynced" ∧ c.Status = "True") ∨
       ¬ ∃ i ∈ inventory.Status.Instances, i.InstanceID = connection.Spec.InstanceID) →
      ∃ obj ok,
        (CrdbDBaaSConnectionReconciler.Reconcile w cached req).trace =
          [.getConnection req true,
           .getInventory ⟨connection.Spec.InventoryRef.Namespace,
             connection.Spec.InventoryRef.Name⟩ true,
           .updateConnectionStatus obj ok] ∧
        (∃ c ∈ obj.Status.Conditions, c.Type_ = "NotReady" ∧ c.Reason = "InventoryNotReady") ∧
        (∀ e ∈ (CrdbDBaaSConnectionReconciler.Reconcile w cached req).trace,
          e.isRestCall = false ∧ e.isCreate = false) ∧
        (CrdbDBaaSConnectionReconciler.Reconcile w cached req).err ≠ none) := by
  refine ⟨getClusterInstance_isOk_iff _ _, fun inst => getClusterInstance_ok_iff _ _ _, ?_⟩
  intro hfail
  have hany : connection.Status.Conditions.any (fun cond =>
      cond.Type_ == ConnectionConditionReadyType && cond.Status == ConditionTrue) = false := by
    rw [Bool.eq_false_iff]
    intro h
    exact hnot ((hasCondition_iff _ _ _).1 h)
  obtain ⟨err, hinst⟩ : ∃ err, getClusterInstance inventory connection.Spec.InstanceID
      = .error err := by
    rcases h : getClusterInstance inventory connection.Spec.InstanceID with err | inst
    · exact ⟨err, rfl⟩
    · exfalso
      have := (getClusterInstance_isOk_iff _ _).1 ⟨inst, h⟩
      rcases hfail with hf | hf
      · exact hf this.1
      · exact hf this.2
  obtain ⟨obj, h1, -, -, hup⟩ := updateStatus_cases w connection "False" "InventoryNotReady"
    "Wait for Inventory"
  have hcond : ∃ c ∈ obj.Status.Conditions, c.Type_ = "NotReady" ∧ c.Reason = "InventoryNotReady" := by
    rw [h1]
    obtain ⟨c, hm, h2, -, h3, -⟩ := SetStatusCondition_mem connection.Status.Conditions
      { Type_ := if "False" = "True" then "ReadyForBinding" else "NotReady", Status := "False",
        Reason := "InventoryNotReady", Message := "Wait for Inventory" }
    exact ⟨c, hm, by simpa using h2, h3⟩
  unfold CrdbDBaaSConnectionReconciler.Reconcile
  simp only [hget, hany, hinv, hinst]
  rcases hup with ⟨-, hup⟩ | ⟨e', -, hup⟩
  · refine ⟨obj, true, ?_, hcond, ?_, ?_⟩ <;>
      simp [ConditionFalse, ConnectionConditionNotReadyReason,
        ConnectionConditionNotReadyReasonMsg, hup, Event.isRestCall, Event.isCreate]
  · refine ⟨obj, false, ?_, hcond, ?_, ?_⟩ <;>
      simp [ConditionFalse, ConnectionConditionNotReadyReason,
        ConnectionConditionNotReadyReasonMsg, hup, Event.isRestCall, Event.isCreate]

end controllers

namespace controllers

/-- Witness for C5: Scenario B. -/
theorem instance_resolution_failure_marks_not_ready_witness :
    ∃ obj ok,
      (CrdbDBaaSConnectionReconciler.Reconcile scenario.missingInstanceWorld none
          scenario.req).trace =
        [.getConnection scenario.req true, .getInventory ⟨"ns", "inv"⟩ true,
         .updateConnectionStatus obj ok] ∧
      (∃ c ∈ obj.Status.Conditions, c.Type_ = "NotReady" ∧ c.Reason = "InventoryNotReady") ∧
      (∀ e ∈ (CrdbDBaaSConnectionReconciler.Reconcile scenario.missingInstanceWorld none
          scenario.req).trace, e.isRestCall = false ∧ e.isCreate = false) ∧
      (CrdbDBaaSConnectionReconciler.Reconcile scenario.missingInstanceWorld none
          scenario.req).err ≠ none :=
  (instance_resolution_failure_marks_not_ready scenario.missingInstanceWorld none scenario.req
    (scenario.connection []) (scenario.inventory [scenario.synced] []) rfl
    (by simp [scenario.connection]) rfl).2.2
    (Or.inr (by simp [scenario.inventory]))

end controllers

/-! ## The full success path -/

namespace controllers
open crdb
variable {σ : Type}

/-- C2. Full success path: for a fetched, not yet Ready Connection whose Inventory is
synced and holds the target instance, in a world in which `CreateUser`,
`GetClusterCertificate`, the Secret create, the ConfigMap create and the status update
succeed (and, when no client is cached, the credential secret is complete, without which
`CreateUser` is never called), `Reconcile` makes, after lookups only, exactly the calls
`CreateUser`, `GetClusterCertificate`, the create of the Secret, the create of the
ConfigMap and one successful status update. The object `obj` of that update is the
Connection with `CredentialsRef` naming the created Secret, `ConnectionInfoRef` naming
the created ConfigMap and a condition `ReadyForBinding` with status `True`; `Reconcile`
returns the empty result and no error. -/
theorem reconcile_success_commits_ready (w : World σ) (cached : Option σ)
    (req : NamespacedName) (connection : CrdbDBaaSConnection) (inventory : CrdbDBaaSInventory)
    (hget : w.GetConnection req = .ok connection)
    (hnot : ¬ ∃ cond ∈ connection.Status.Conditions,
      cond.Type_ = "ReadyForBinding" ∧ cond.Status = "True")
    (hinv : w.GetInventory ⟨connection.Spec.InventoryRef.Namespace,
      connection.Spec.InventoryRef.Name⟩ = .ok inventory)
    (hsynced : ∃ c ∈ inventory.Status.Conditions, c.Type_ = "SpecSynced" ∧ c.Status = "True")
    (htarget : ∃ i ∈ inventory.Status.Instances, i.InstanceID = connection.Spec.InstanceID)
    (hcred : cached = none → ∃ secret,
      w.GetSecret ⟨inventory.Spec.CredentialsRef.Namespace,
        inventory.Spec.CredentialsRef.Name⟩ = .ok secret ∧
      secret.Data.get "orgId" ≠ "" ∧ secret.Data.get "apiKey" ≠ "")
    (hcu : ∀ s, ∃ s1 u, w.service.CreateUser s connection.Spec.InstanceID = (s1, .ok u))
    (hcert : ∀ s, ∃ s1 c,
      w.service.GetClusterCertificate s connection.Spec.InstanceID = (s1, .ok c))
    (hsec : ∀ obj, ∃ created, w.CreateSecret obj = .ok created)
    (hcm : ∀ obj, ∃ created, w.CreateConfigMap obj = .ok created)
    (hupd : ∀ obj, w.UpdateConnectionStatus obj = none) :
    ∃ pre inst u cert createdSecret createdConfigMap obj,
      (CrdbDBaaSConnectionReconciler.Reconcile w cached req).trace =
        pre ++ [.createUser connection.Spec.InstanceID (some u),
                .getClusterCertificate connection.Spec.InstanceID (some cert),
                .createSecret (buildSecret connection u cert) (some createdSecret),
                .createConfigMap (buildConfigMap connection inst) (some createdConfigMap),
                .updateConnectionStatus obj true] ∧
      (∀ e ∈ pre, e.isLookup = true) ∧
      getClusterInstance inventory connection.Spec.InstanceID = .ok inst ∧
      w.CreateSecret (buildSecret connection u cert) = .ok createdSecret ∧
      w.CreateConfigMap (buildConfigMap connection inst) = .ok createdConfigMap ∧
      obj.Kind = connection.Kind ∧ obj.APIVersion = connection.APIVersion ∧
      obj.meta = connection.meta ∧ obj.Spec = connection.Spec ∧
      obj.Status.CredentialsRef = some { Name := createdSecret.meta.Name } ∧
      obj.Status.ConnectionInfoRef = some { Name := createdConfigMap.meta.Name } ∧
      obj.Status.Conditions = SetStatusCondition connection.Status.Conditions
        { Type_ := "ReadyForBinding", Status := "True", Reason := "Ready",
          Message := "Connection is ready" } ∧
      (∃ cond ∈ obj.Status.Conditions, cond.Type_ = "ReadyForBinding" ∧ cond.Status = "True") ∧
      (CrdbDBaaSConnectionReconciler.Reconcile w cached req).result =
        { Requeue := false, RequeueAfter := 0 } ∧
      (CrdbDBaaSConnectionReconciler.Reconcile w cached req).err = none := by
  have hnot' : hasCondition connection.Status.Conditions "ReadyForBinding" "True" = false := by
    rw [Bool.eq_false_iff, Ne, hasCondition_iff]
    exact hnot
  obtain ⟨inst, hinst⟩ := (getClusterInstance_isOk_iff inventory connection.Spec.InstanceID).2
    ⟨hsynced, htarget⟩
  obtain ⟨service, t, ht, hrun⟩ :=
    reconcile_reaches_provision w cached req connection inventory inst hget hnot' hinv hinst hcred
  obtain ⟨s1, u, hcu1⟩ := hcu service
  obtain ⟨s2, cert, hcert1⟩ := hcert s1
  obtain ⟨sec, hsec1⟩ := hsec (buildSecret connection u cert)
  obtain ⟨cm, hcm1⟩ := hcm (buildConfigMap connection inst)
  obtain ⟨obj, hk, ha, hm, hsp, hcr, hci, hco, hprov⟩ :=
    provision_success w connection inst service s1 s2 t u cert sec cm hcu1 hcert1 hsec1 hcm1 hupd
  refine ⟨t, inst, u, cert, sec, cm, obj, by rw [hrun, hprov], ht, hinst, hsec1, hcm1,
    hk, ha, hm, hsp, hcr, hci, hco, ?_, by rw [hrun, hprov], by rw [hrun, hprov]⟩
  rw [hco]
  obtain ⟨cond, hmem, h1, h2, -⟩ := SetStatusCondition_mem connection.Status.Conditions
    { Type_ := "ReadyForBinding", Status := "True", Reason := "Ready",
      Message := "Connection is ready" }
  exact ⟨cond, hmem, h1, h2⟩

end controllers

namespace controllers

/-- Witness for C2: Scenario D, without a cached client. The run is the three lookups,
the four provisioning calls and the status update that commits `scenario.committed`. -/
theorem reconcile_success_commits_ready_witness :
    (∃ pre inst u cert createdSecret createdConfigMap obj,
      (CrdbDBaaSConnectionReconciler.Reconcile scenario.successWorld none scenario.req).trace =
        pre ++ [.createUser (scenario.connection []).Spec.InstanceID (some u),
                .getClusterCertificate (scenario.connection []).Spec.InstanceID (some cert),
                .createSecret (buildSecret (scenario.connection []) u cert) (some createdSecret),
                .createConfigMap (buildConfigMap (scenario.connection []) inst)
                  (some createdConfigMap),
                .updateConnectionStatus obj true] ∧
      (∀ e ∈ pre, e.isLookup = true) ∧
      getClusterInstance (scenario.inventory [scenario.synced] [scenario.instanceC1])
        (scenario.connection []).Spec.InstanceID = .ok inst ∧
      scenario.successWorld.CreateSecret (buildSecret (scenario.connection []) u cert) =
        .ok createdSecret ∧
      scenario.successWorld.CreateConfigMap (buildConfigMap (scenario.connection []) inst) =
        .ok createdConfigMap ∧
      obj.Kind = (scenario.connection []).Kind ∧
      obj.APIVersion = (scenario.connection []).APIVersion ∧
      obj.meta = (scenario.connection []).meta ∧ obj.Spec = (scenario.connection []).Spec ∧
      obj.Status.CredentialsRef = some { Name := createdSecret.meta.Name } ∧
      obj.Status.ConnectionInfoRef = some { Name := createdConfigMap.meta.Name } ∧
      obj.Status.Conditions = SetStatusCondition (scenario.connection []).Status.Conditions
        { Type_ := "ReadyForBinding", Status := "True", Reason := "Ready",
          Message := "Connection is ready" } ∧
      (∃ cond ∈ obj.Status.Conditions, cond.Type_ = "ReadyForBinding" ∧ cond.Status = "True") ∧
      (CrdbDBaaSConnectionReconciler.Reconcile scenario.successWorld none scenario.req).result =
        { Requeue := false, RequeueAfter := 0 } ∧
      (CrdbDBaaSConnectionReconciler.Reconcile scenario.successWorld none scenario.req).err =
        none) ∧
    (CrdbDBaaSConnectionReconciler.Reconcile scenario.successWorld none scenario.req).trace =
      scenario.successCalls ++ [.updateConnectionStatus scenario.committed true] :=
  ⟨reconcile_success_commits_ready scenario.successWorld none scenario.req
    (scenario.connection []) (scenario.inventory [scenario.synced] [scenario.instanceC1])
    rfl (by simp [scenario.connection]) rfl
    ⟨scenario.synced, by decide, rfl, rfl⟩ ⟨scenario.instanceC1, by decide, rfl⟩
    (fun _ => ⟨scenario.credentialSecret, rfl, by decide, by decide⟩)
    (fun s => ⟨s, scenario.sqlUser, rfl⟩) (fun s => ⟨s, scenario.caCert, rfl⟩)
    (fun obj => ⟨_, rfl⟩) (fun obj => ⟨_, rfl⟩) (fun _ => rfl),
   by decide⟩

end controllers

/-! ## The Inventory reconciler -/

namespace controllers
open crdb
variable {σ : Type}

theorem clusterInstance_id_name (c : Cluster) (details : ClusterDetails) :
    (clusterInstance c details).InstanceID = c.ID ∧ (clusterInstance c details).Name = c.Name :=
  ⟨rfl, rfl⟩

/-- Every call `discoverLoop` makes is a `GetCluster`. -/
theorem discoverLoop_trace (w : World σ) (s : σ) (clusters : List Cluster) (acc : List Instance) :
    ∀ e ∈ (discoverLoop w s clusters acc).2.2, ∃ id ok, e = .getCluster id ok := by
  induction clusters generalizing s acc with
  | nil => simp [discoverLoop]
  | cons c cs ih =>
    unfold discoverLoop
    rcases h : w.service.GetCluster s c.ID with ⟨s1, err | d⟩
    · simp
    · intro e he
      simp only [List.mem_cons] at he
      rcases he with rfl | he
      · exact ⟨_, _, rfl⟩
      · exact ih _ _ e he

/-- When `discoverLoop` succeeds, it has appended one Instance per cluster, in order,
with the ID and the name of the cluster. -/
theorem discoverLoop_ok (w : World σ) (s : σ) (clusters : List Cluster) (acc : List Instance)
    (insts : List Instance) (h : (discoverLoop w s clusters acc).2.1 = .ok insts) :
    ∃ new, insts = acc ++ new ∧
      new.map (fun i => i.InstanceID) = clusters.map (fun c => c.ID) ∧
      new.map (fun i => i.Name) = clusters.map (fun c => c.Name) := by
  induction clusters generalizing s acc with
  | nil =>
    simp only [discoverLoop, Except.ok.injEq] at h
    exact ⟨[], by simp [h]⟩
  | cons c cs ih =>
    unfold discoverLoop at h
    rcases hg : w.service.GetCluster s c.ID with ⟨s1, err | d⟩
    · simp [hg] at h
    · simp only [hg] at h
      obtain ⟨new, hnew, h1, h2⟩ := ih s1 (acc ++ [clusterInstance c d]) h
      exact ⟨clusterInstance c d :: new, by simp [hnew], by simp [h1, clusterInstance],
        by simp [h2, clusterInstance]⟩

/-- When no `GetCluster` call of the loop fails, `discoverLoop` succeeds. -/
theorem discoverLoop_total (w : World σ) (s : σ) (clusters : List Cluster) (acc : List Instance)
    (h : ∀ id, Event.getCluster id false ∉ (discoverLoop w s clusters acc).2.2) :
    ∃ insts, (discoverLoop w s clusters acc).2.1 = .ok insts := by
  induction clusters generalizing s acc with
  | nil => exact ⟨acc, rfl⟩
  | cons c cs ih =>
    unfold discoverLoop at h ⊢
    rcases hg : w.service.GetCluster s c.ID with ⟨s1, err | d⟩
    · exact absurd (by simp [hg]) (h c.ID)
    · simp only [hg] at h ⊢
      exact ih s1 _ (fun id hm => h id (List.mem_cons_of_mem _ hm))

end controllers

namespace controllers
open crdb
variable {σ : Type}

/-- Every call `discoverClusters` makes is a REST call and no status update. -/
theorem discoverClusters_trace (w : World σ) (s : σ) :
    ∀ e ∈ (discoverClusters w s).2.2, e.isRestCall = true ∧ e.isStatusUpdate = false := by
  unfold discoverClusters
  rcases h : w.service.ListClusters s with ⟨s1, err | clusters⟩
  · simp [Event.isRestCall, Event.isStatusUpdate]
  · intro e he
    simp only [List.mem_cons] at he
    rcases he with rfl | he
    · simp [Event.isRestCall, Event.isStatusUpdate]
    · obtain ⟨id, ok, rfl⟩ := discoverLoop_trace w s1 clusters [] e he
      simp [Event.isRestCall, Event.isStatusUpdate]

/-- When `discoverClusters` succeeds, `ListClusters` answered with a list of clusters and
the result has one Instance per cluster, in order, with its ID and name. -/
theorem discoverClusters_ok (w : World σ) (s : σ) (insts : List Instance)
    (h : (discoverClusters w s).2.1 = .ok insts) :
    ∃ s1 clusters, w.service.ListClusters s = (s1, .ok clusters) ∧
      insts.map (fun i => i.InstanceID) = clusters.map (fun c => c.ID) ∧
      insts.map (fun i => i.Name) = clusters.map (fun c => c.Name) := by
  unfold discoverClusters at h
  rcases hl : w.service.ListClusters s with ⟨s1, err | clusters⟩
  · simp [hl] at h
  · simp only [hl] at h
    obtain ⟨new, hnew, h1, h2⟩ := discoverLoop_ok w s1 clusters [] insts h
    simp only [List.nil_append] at hnew
    subst hnew
    exact ⟨s1, clusters, rfl, h1, h2⟩

/-- The first half of the Inventory `Reconcile`: either it returns after lookups only,
or it hands the fetched Inventory and a client to `sync`. -/
theorem inventory_reconcile_cases (w : World σ) (cached : Option σ) (req : NamespacedName) :
    (∀ e ∈ (CrdbDBaaSInventoryReconciler.Reconcile w cached req).trace, e.isLookup = true) ∨
    (∃ inventory service t, w.GetInventory req = .ok inventory ∧ (∀ e ∈ t, e.isLookup = true) ∧
      CrdbDBaaSInventoryReconciler.Reconcile w cached req =
        CrdbDBaaSInventoryReconciler.sync w inventory service t) := by
  unfold CrdbDBaaSInventoryReconciler.Reconcile
  rcases hget : w.GetInventory req with err | inventory
  · left
    by_cases hnf : err.notFound = true <;> simp [hnf, Event.isLookup]
  rcases retrieve_cases w ⟨inventory.Spec.CredentialsRef.Namespace,
      inventory.Spec.CredentialsRef.Name⟩ with ⟨e, ok, hr⟩ | ⟨c, hr⟩
  · left
    cases cached <;>
      simp [CreateClusterServiceClient, updateClusterServiceCloudCredential, hr, Event.isLookup]
  · right
    cases cached with
    | none =>
      exact ⟨inventory, w.NewClusterServiceCloud c,
        [.getInventory req true, .getSecret ⟨inventory.Spec.CredentialsRef.Namespace,
          inventory.Spec.CredentialsRef.Name⟩ true], rfl, by simp [Event.isLookup],
        by simp [CreateClusterServiceClient, hr]⟩
    | some service =>
      exact ⟨inventory, w.service.SetCredential service c,
        [.getInventory req true, .getSecret ⟨inventory.Spec.CredentialsRef.Namespace,
          inventory.Spec.CredentialsRef.Name⟩ true, .setCredential c], rfl,
        by simp [Event.isLookup],
        by simp [updateClusterServiceCloudCredential, hr]⟩

/-- The three ways the second half of the Inventory `Reconcile` can end. -/
theorem sync_cases (w : World σ) (inventory : CrdbDBaaSInventory) (service : σ)
    (t : List Event) :
    (∃ err, (discoverClusters w service).2.1 = .error err ∧
      CrdbDBaaSInventoryReconciler.sync w inventory service t =
        ⟨{ RequeueAfter := DefaultRetryDelay }, none, t ++ (discoverClusters w service).2.2,
          some (discoverClusters w service).1⟩) ∨
    (∃ insts obj ok, (discoverClusters w service).2.1 = .ok insts ∧
      obj.Status.Instances = insts ∧
      obj.Status.Conditions = SetStatusCondition inventory.Status.Conditions
        { Type_ := "SpecSynced", Status := "True", Reason := "SyncOK",
          Message := "Cluster details in sync" } ∧
      (ok = true → (CrdbDBaaSInventoryReconciler.sync w inventory service t).result = {} ∧
        (CrdbDBaaSInventoryReconciler.sync w inventory service t).err = none) ∧
      (ok = false → (CrdbDBaaSInventoryReconciler.sync w inventory service t).result =
          { Requeue := true } ∧
        (CrdbDBaaSInventoryReconciler.sync w inventory service t).err ≠ none) ∧
      (CrdbDBaaSInventoryReconciler.sync w inventory service t).trace =
        t ++ (discoverClusters w service).2.2 ++ [.updateInventoryStatus obj ok]) := by
  unfold CrdbDBaaSInventoryReconciler.sync
  rcases hd : discoverClusters w service with ⟨s', err | insts, td⟩
  · exact Or.inl ⟨err, rfl, rfl⟩
  · right
    simp only [InventoryConditionReadyType, ConditionTrue, InventoryConditionReason,
      InventoryConditionReadyMessage]
    split
    · next err hu => exact ⟨insts, _, false, rfl, rfl, rfl, by simp, by simp, rfl⟩
    · next hu => exact ⟨insts, _, true, rfl, rfl, rfl, by simp, by simp, rfl⟩

end controllers

namespace controllers
open crdb
variable {σ : Type}

/-- When `GetCluster` succeeds for each of the clusters, `discoverLoop` succeeds after
one successful `GetCluster` call per cluster, in order. -/
theorem discoverLoop_success (w : World σ) (s : σ) (clusters : List Cluster)
    (acc : List Instance)
    (hall : ∀ s, ∀ c ∈ clusters, ∃ s1 d, w.service.GetCluster s c.ID = (s1, .ok d)) :
    ∃ s2 insts, discoverLoop w s clusters acc =
      (s2, .ok insts, clusters.map (fun c => Event.getCluster c.ID true)) := by
  induction clusters generalizing s acc with
  | nil => exact ⟨s, acc, rfl⟩
  | cons c cs ih =>
    obtain ⟨s1, d, hg⟩ := hall s c (by simp)
    obtain ⟨s2, insts, hrest⟩ := ih s1 (acc ++ [clusterInstance c d])
      (fun s c1 hc1 => hall s c1 (List.mem_cons_of_mem _ hc1))
    refine ⟨s2, insts, ?_⟩
    unfold discoverLoop
    simp only [hg, hrest, List.map_cons]

/-- When `ListClusters` answers with `clusters` and `GetCluster` succeeds for each of
them, `discoverClusters` succeeds after `ListClusters` and one `GetCluster` call per
cluster, in order. -/
theorem discoverClusters_success (w : World σ) (service s1 : σ) (clusters : List Cluster)
    (hlist : w.service.ListClusters service = (s1, .ok clusters))
    (hall : ∀ s, ∀ c ∈ clusters, ∃ s1 d, w.service.GetCluster s c.ID = (s1, .ok d)) :
    ∃ s2 insts, discoverClusters w service =
      (s2, .ok insts,
        Event.listClusters true :: clusters.map (fun c => Event.getCluster c.ID true)) := by
  obtain ⟨s2, insts, hloop⟩ := discoverLoop_success w s1 clusters [] hall
  refine ⟨s2, insts, ?_⟩
  unfold discoverClusters
  simp only [hlist, hloop]

/-- A fetched Inventory with a complete credential secret reaches the second half of
the Inventory `Reconcile` after lookups only. -/
theorem inventory_reconcile_reaches_sync (w : World σ) (cached : Option σ)
    (req : NamespacedName) (inventory : CrdbDBaaSInventory) (secret : Secret)
    (hget : w.GetInventory req = .ok inventory)
    (hs : w.GetSecret ⟨inventory.Spec.CredentialsRef.Namespace,
      inventory.Spec.CredentialsRef.Name⟩ = .ok secret)
    (h1 : secret.Data.get "orgId" ≠ "") (h2 : secret.Data.get "apiKey" ≠ "") :
    ∃ service t, (∀ e ∈ t, e.isLookup = true) ∧
      CrdbDBaaSInventoryReconciler.Reconcile w cached req =
        CrdbDBaaSInventoryReconciler.sync w inventory service t := by
  have hr := retrieve_complete w _ secret hs h1 h2
  unfold CrdbDBaaSInventoryReconciler.Reconcile
  simp only [hget]
  cases cached with
  | none =>
    exact ⟨w.NewClusterServiceCloud
        { OrgID := secret.Data.get "orgId", APIKey := secret.Data.get "apiKey" },
      [.getInventory req true, .getSecret ⟨inventory.Spec.CredentialsRef.Namespace,
        inventory.Spec.CredentialsRef.Name⟩ true], by simp [Event.isLookup],
      by simp [CreateClusterServiceClient, hr]⟩
  | some service =>
    exact ⟨w.service.SetCredential service
        { OrgID := secret.Data.get "orgId", APIKey := secret.Data.get "apiKey" },
      [.getInventory req true, .getSecret ⟨inventory.Spec.CredentialsRef.Namespace,
        inventory.Spec.CredentialsRef.Name⟩ true,
       .setCredential { OrgID := secret.Data.get "orgId", APIKey := secret.Data.get "apiKey" }],
      by simp [Event.isLookup],
      by simp [updateClusterServiceCloudCredential, hr]⟩

/-- The second half of the Inventory `Reconcile` when the discovery and the status
update succeed: the calls it makes, the object it commits, and its results. -/
theorem sync_success (w : World σ) (inventory : CrdbDBaaSInventory) (service s2 : σ)
    (t td : List Event) (insts : List Instance)
    (hd : discoverClusters w service = (s2, .ok insts, td))
    (hupd : ∀ obj, w.UpdateInventoryStatus obj = none) :
    ∃ obj : CrdbDBaaSInventory,
      obj.Kind = inventory.Kind ∧ obj.APIVersion = inventory.APIVersion ∧
      obj.meta = inventory.meta ∧ obj.Spec = inventory.Spec ∧
      obj.Status.Instances = insts ∧
      obj.Status.Conditions = SetStatusCondition inventory.Status.Conditions
        { Type_ := "SpecSynced", Status := "True", Reason := "SyncOK",
          Message := "Cluster details in sync" } ∧
      CrdbDBaaSInventoryReconciler.sync w inventory service t =
        ⟨{}, none, t ++ td ++ [.updateInventoryStatus obj true], some s2⟩ := by
  refine ⟨{ inventory with Status := { inventory.Status with
      Conditions := SetStatusCondition inventory.Status.Conditions
        { Type_ := "SpecSynced", Status := "True", Reason := "SyncOK",
          Message := "Cluster details in sync" },
      Instances := insts } }, rfl, rfl, rfl, rfl, rfl, rfl, ?_⟩
  unfold CrdbDBaaSInventoryReconciler.sync
  simp [hd, hupd, InventoryConditionReadyType, ConditionTrue, InventoryConditionReason,
    InventoryConditionReadyMessage]

end controllers

namespace controllers
open crdb
variable {σ : Type}

/-- C7. Inventory snapshot. When `ListClusters` answers with `clusters` and no
`GetCluster` call of the discovery fails, `discoverClusters` returns a list of Instances
of the same length and in the same order, the i-th with the ID and the name of the i-th
cluster. And for a fetched Inventory with a complete credential secret, in a world in
which `ListClusters` answers with `clusters`, `GetCluster` succeeds for each of them and
the status update succeeds, the Inventory `Reconcile` makes, after lookups only, the
calls `ListClusters`, one `GetCluster` per cluster and one successful status update. The
object `obj` of that update is the Inventory with its Instances replaced by exactly the
list that `discoverClusters` returned, whatever Instances were stored before, and with a
condition `SpecSynced` with status `True`; `Reconcile` returns the empty result and no
error. -/
theorem inventory_snapshot (w : World σ) :
    (∀ service s1 clusters, w.service.ListClusters service = (s1, .ok clusters) →
      (∀ id, Event.getCluster id false ∉ (discoverClusters w service).2.2) →
      ∃ insts, (discoverClusters w service).2.1 = .ok insts ∧
        insts.length = clusters.length ∧
        insts.map (fun i => i.InstanceID) = clusters.map (fun c => c.ID) ∧
        insts.map (fun i => i.Name) = clusters.map (fun c => c.Name)) ∧
    (∀ cached req inventory clusters,
      w.GetInventory req = .ok inventory →
      (∃ secret, w.GetSecret ⟨inventory.Spec.CredentialsRef.Namespace,
          inventory.Spec.CredentialsRef.Name⟩ = .ok secret ∧
        secret.Data.get "orgId" ≠ "" ∧ secret.Data.get "apiKey" ≠ "") →
      (∀ s, ∃ s1, w.service.ListClusters s = (s1, .ok clusters)) →
      (∀ s, ∀ c ∈ clusters, ∃ s1 d, w.service.GetCluster s c.ID = (s1, .ok d)) →
      (∀ obj, w.UpdateInventoryStatus obj = none) →
      ∃ pre service insts obj,
        (CrdbDBaaSInventoryReconciler.Reconcile w cached req).trace =
          pre ++ (Event.listClusters true ::
            clusters.map (fun c => Event.getCluster c.ID true)) ++
            [.updateInventoryStatus obj true] ∧
        (∀ e ∈ pre, e.isLookup = true) ∧
        (discoverClusters w service).2.1 = .ok insts ∧
        insts.length = clusters.length ∧
        insts.map (fun i => i.InstanceID) = clusters.map (fun c => c.ID) ∧
        insts.map (fun i => i.Name) = clusters.map (fun c => c.Name) ∧
        obj.Kind = inventory.Kind ∧ obj.APIVersion = inventory.APIVersion ∧
        obj.meta = inventory.meta ∧ obj.Spec = inventory.Spec ∧
        obj.Status.Instances = insts ∧
        obj.Status.Conditions = SetStatusCondition inventory.Status.Conditions
          { Type_ := "SpecSynced", Status := "True", Reason := "SyncOK",
            Message := "Cluster details in sync" } ∧
        (∃ c ∈ obj.Status.Conditions, c.Type_ = "SpecSynced" ∧ c.Status = "True") ∧
        (CrdbDBaaSInventoryReconciler.Reconcile w cached req).result =
          { Requeue := false, RequeueAfter := 0 } ∧
        (CrdbDBaaSInventoryReconciler.Reconcile w cached req).err = none) := by
  constructor
  · intro service s1 clusters hlist hall
    have hloop : ∃ insts, (discoverLoop w s1 clusters []).2.1 = .ok insts := by
      apply discoverLoop_total
      intro id hm
      apply hall id
      unfold discoverClusters
      simp only [hlist]
      exact List.mem_cons_of_mem _ hm
    obtain ⟨insts, hinsts⟩ := hloop
    have hd : (discoverClusters w service).2.1 = .ok insts := by
      unfold discoverClusters
      simp only [hlist]
      exact hinsts
    obtain ⟨s1', clusters', hl', h1, h2⟩ := discoverClusters_ok w service insts hd
    obtain rfl : clusters' = clusters := by
      rw [hlist] at hl'
      simp only [Prod.mk.injEq, Except.ok.injEq] at hl'
      exact hl'.2.symm
    refine ⟨insts, hd, ?_, h1, h2⟩
    simpa using congrArg List.length h1
  · intro cached req inventory clusters hget hcred hlist hall hupd
    obtain ⟨secret, hs, hs1, hs2⟩ := hcred
    obtain ⟨service, t, ht, hrun⟩ :=
      inventory_reconcile_reaches_sync w cached req inventory secret hget hs hs1 hs2
    obtain ⟨s1, hl⟩ := hlist service
    obtain ⟨s2, insts, hd⟩ := discoverClusters_success w service s1 clusters hl hall
    obtain ⟨obj, hk, ha, hm, hsp, hi, hc, hsync⟩ :=
      sync_success w inventory service s2 t _ insts hd hupd
    have hd1 : (discoverClusters w service).2.1 = .ok insts := by rw [hd]
    obtain ⟨s1', clusters', hl', h1, h2⟩ := discoverClusters_ok w service insts hd1
    obtain rfl : clusters' = clusters := by
      rw [hl] at hl'
      simp only [Prod.mk.injEq, Except.ok.injEq] at hl'
      exact hl'.2.symm
    refine ⟨t, service, insts, obj, by rw [hrun, hsync], ht, hd1,
      by simpa using congrArg List.length h1, h1, h2, hk, ha, hm, hsp, hi, hc, ?_,
      by rw [hrun, hsync], by rw [hrun, hsync]⟩
    rw [hc]
    obtain ⟨c, hmem, hc1, hc2, -⟩ := SetStatusCondition_mem inventory.Status.Conditions
      { Type_ := "SpecSynced", Status := "True", Reason := "SyncOK",
        Message := "Cluster details in sync" }
    exact ⟨c, hmem, hc1, hc2⟩

end controllers

namespace controllers

/-- Witness for C7: Scenario A with a cached client. The discovery of the two clusters
`c1` and `c2` succeeds, and the run ends with the status update that commits
`scenario.syncedInventory`, in which the two discovered Instances have replaced the stale
Instance of the stored Inventory. -/
theorem inventory_snapshot_witness :
    (∃ insts, (discoverClusters scenario.staleInventoryWorld ()).2.1 = .ok insts ∧
      insts.length = scenario.clusters.length ∧
      insts.map (fun i => i.InstanceID) = ["c1", "c2"] ∧
      insts.map (fun i => i.Name) = ["one", "two"]) ∧
    (∃ pre service insts obj,
      (CrdbDBaaSInventoryReconciler.Reconcile scenario.staleInventoryWorld (some ())
          scenario.inventoryKey).trace =
        pre ++ (Event.listClusters true ::
          scenario.clusters.map (fun c => Event.getCluster c.ID true)) ++
          [.updateInventoryStatus obj true] ∧
      (∀ e ∈ pre, e.isLookup = true) ∧
      (discoverClusters scenario.staleInventoryWorld service).2.1 = .ok insts ∧
      insts.length = scenario.clusters.length ∧
      insts.map (fun i => i.InstanceID) = scenario.clusters.map (fun c => c.ID) ∧
      insts.map (fun i => i.Name) = scenario.clusters.map (fun c => c.Name) ∧
      obj.Kind = (scenario.inventory [] [{ InstanceID := "old" }]).Kind ∧
      obj.APIVersion = (scenario.inventory [] [{ InstanceID := "old" }]).APIVersion ∧
      obj.meta = (scenario.inventory [] [{ InstanceID := "old" }]).meta ∧
      obj.Spec = (scenario.inventory [] [{ InstanceID := "old" }]).Spec ∧
      obj.Status.Instances = insts ∧
      obj.Status.Conditions =
        SetStatusCondition (scenario.inventory [] [{ InstanceID := "old" }]).Status.Conditions
          { Type_ := "SpecSynced", Status := "True", Reason := "SyncOK",
            Message := "Cluster details in sync" } ∧
      (∃ c ∈ obj.Status.Conditions, c.Type_ = "SpecSynced" ∧ c.Status = "True") ∧
      (CrdbDBaaSInventoryReconciler.Reconcile scenario.staleInventoryWorld (some ())
        scenario.inventoryKey).result = { Requeue := false, RequeueAfter := 0 } ∧
      (CrdbDBaaSInventoryReconciler.Reconcile scenario.staleInventoryWorld (some ())
        scenario.inventoryKey).err = none) ∧
    (CrdbDBaaSInventoryReconciler.Reconcile scenario.staleInventoryWorld (some ())
        scenario.inventoryKey).trace =
      [.getInventory scenario.inventoryKey true,
       .getSecret { Namespace := "ns", Name := "cred" } true,
       .setCredential scenario.cred1,
       .listClusters true, .getCluster "c1" true, .getCluster "c2" true,
       .updateInventoryStatus scenario.syncedInventory true] :=
  ⟨(inventory_snapshot scenario.staleInventoryWorld).1 () () scenario.clusters rfl
    (fun id h => by
      have ht : (discoverClusters scenario.staleInventoryWorld ()).2.2 =
          [.listClusters true, .getCluster "c1" true, .getCluster "c2" true] := by decide
      rw [ht] at h
      simp at h),
   (inventory_snapshot scenario.staleInventoryWorld).2 (some ()) scenario.inventoryKey
    (scenario.inventory [] [{ InstanceID := "old" }]) scenario.clusters rfl
    ⟨scenario.credentialSecret, rfl, by decide, by decide⟩
    (fun s => ⟨s, rfl⟩)
    (fun s c _ => ⟨s, _, rfl⟩)
    (fun _ => rfl),
   by decide⟩

end controllers

/-! ## The Secret of a Connection -/
namespace controllers
open crdb

/-- C10. Secret contents: when `CreateUser` returns the user `user` and
`GetClusterCertificate` returns the certificate `cert`, the Secret that `buildSecret`
builds has exactly the three data keys `username`, `password` and `root.crt`;
`username` holds the user's name, which is `sql_user_` followed by the clock reading
and is not empty; `password` holds the generated password, which has 12 characters;
`root.crt` holds the body of the certificate response. The Secret is in the Connection's
namespace, has the generated-name prefix `crdb-cloud-user-credentials-` and one owner
reference, which names the Connection. -/
theorem buildSecret_contents (rt : Runtime) (c c' : ClusterServiceCloud)
    (clusterID clusterID' : String) (connection : CrdbDBaaSConnection)
    (call : Call SqlUser) (user : SqlUser) (cert : ClusterCertificate)
    (hcall : c.CreateUser rt clusterID = some call) (huser : call.value = some user)
    (hcert : (c'.GetClusterCertificate rt clusterID').value = some cert) :
    (buildSecret connection user cert).Data.keys = ["username", "password", "root.crt"] ∧
    (buildSecret connection user cert).Data.lookup "username" = some user.User.Name ∧
    user.User.Name = "sql_user_" ++ toString rt.now ∧
    user.User.Name ≠ "" ∧
    (buildSecret connection user cert).Data.lookup "password" = some user.Password ∧
    generatePassword rt.rnd rt.shuf = some user.Password ∧
    user.Password.length = 12 ∧
    user.Password ≠ "" ∧
    (buildSecret connection user cert).Data.lookup "root.crt" = some cert.CaCertificate ∧
    cert.CaCertificate = (rt.End (c'.GetClusterCertificate rt clusterID').sent).body ∧
    (buildSecret connection user cert).meta.Namespace = connection.meta.Namespace ∧
    (buildSecret connection user cert).meta.GenerateName = "crdb-cloud-user-credentials-" ∧
    (∃ owner, (buildSecret connection user cert).meta.OwnerReferences = [owner] ∧
      owner.Name = connection.meta.Name ∧ owner.UID = connection.meta.UID ∧
      owner.Kind = connection.Kind ∧ owner.APIVersion = connection.APIVersion) := by
  obtain ⟨pwd, hpwd, -, hval⟩ := CreateUser_some rt c clusterID call hcall
  have hu := hval user huser
  have hlen := generatePassword_length _ _ _ hpwd
  have hc : cert =
      ⟨"root.crt", (rt.End (c'.GetClusterCertificate rt clusterID').sent).body⟩ := by
    rw [GetClusterCertificate_sent]
    unfold ClusterServiceCloud.GetClusterCertificate at hcert
    simp only [] at hcert
    split_ifs at hcert
    simp only [Option.some.injEq] at hcert
    rw [← hcert]
    rfl
  have hname : ("sql_user_" ++ toString rt.now : String) ≠ "" := by
    intro h
    have := congrArg String.length h
    simp only [String.length_append] at this
    have h9 : "sql_user_".length = 9 := by decide
    rw [h9] at this
    have h0 : ("" : String).length = 0 := by decide
    rw [h0] at this
    omega
  have hpne : pwd ≠ "" := by
    intro h
    rw [h] at hlen
    revert hlen
    decide
  subst hu
  rw [hc]
  refine ⟨?_, ?_, rfl, hname, ?_, hpwd, hlen, hpne, ?_, rfl, rfl, rfl, ⟨_, rfl, rfl, rfl, rfl, rfl⟩⟩ <;>
    simp [buildSecret, GoMap.ofList, GoMap.set, GoMap.keys, List.lookup]

end controllers

namespace controllers

/-- Witness for C10: the user and the certificate that a client built for `cred1` gets
in the runtime that answers every request with status 200. -/
theorem buildSecret_contents_witness :
    (buildSecret (scenario.connection []) scenario.generatedUser scenario.caCert).Data.keys =
      ["username", "password", "root.crt"] :=
  match h : (crdb.NewClusterServiceCloud scenario.cred1).CreateUser scenario.runtime "c1" with
  | some call =>
    (buildSecret_contents scenario.runtime (crdb.NewClusterServiceCloud scenario.cred1)
      (crdb.NewClusterServiceCloud scenario.cred1) "c1" "c1" (scenario.connection []) call
      scenario.generatedUser scenario.caCert h
      (by
        have hv : ((crdb.NewClusterServiceCloud scenario.cred1).CreateUser scenario.runtime
            "c1").bind (fun c => c.value) = some scenario.generatedUser := by decide
        rw [h] at hv
        exact hv)
      (by decide)).1
  | none => absurd (congrArg Option.isSome h) (by decide)

end controllers

/-! ## The ConfigMap of a discovered cluster -/


theorem toDigits_length_ge_two (n : Nat) (h : 10 ≤ n) : 2 ≤ (Nat.toDigits 10 n).length := by
  unfold Nat.toDigits
  rw [Nat.toDigitsCore]
  have h1 : n / 10 ≠ 0 := by omega
  simp only [h1, if_false]
  rw [Nat.toDigitsCore_lens_eq]
  obtain ⟨m, rfl⟩ : ∃ m, n = m + 1 := ⟨n - 1, by omega⟩
  rw [Nat.toDigitsCore]
  split
  · simp
  · rw [Nat.toDigitsCore_lens_eq]; omega

/-- The decimal numeral `1` is printed for the number 1 only. -/
theorem toString_eq_one (n : Nat) (h : toString n = "1") : n = 1 := by
  have h' : Nat.toDigits 10 n = ['1'] := by
    have : (Nat.toDigits 10 n).asString = "1" := h
    exact congrArg String.data this
  by_cases hn : 10 ≤ n
  · have := toDigits_length_ge_two n hn
    rw [h'] at this
    simp at this
  · have hlt : n < 10 := by omega
    interval_cases n <;> first | rfl | (exfalso; revert h'; decide)

theorem regions_key_ne_tenant (s t : String) :
    "regions." ++ s ++ t ≠ "serverless.tenantName" := by
  intro h
  have := congrArg String.data h
  simp only [String.data_append] at this
  simp at this

theorem regions_name_ne_dns (s : String) :
    "regions." ++ s ++ ".name" ≠ "regions.1.sqlDns" := by
  intro h
  have := congrArg (fun x => x.data.reverse) h
  simp only [String.data_append, List.reverse_append] at this
  have h1 : ".name".data.reverse = ['e', 'm', 'a', 'n', '.'] := rfl
  have h2 : "regions.1.sqlDns".data.reverse = 's' :: "regions.1.sqlDn".data.reverse := rfl
  rw [h1, h2] at this
  simp at this

theorem regions_dns_eq_first (n : Nat)
    (h : "regions." ++ toString n ++ ".sqlDns" = "regions.1.sqlDns") : n = 1 := by
  apply toString_eq_one
  have := congrArg String.data h
  simp only [String.data_append] at this
  have h2 : (['r', 'e', 'g', 'i', 'o', 'n', 's', '.', '1', '.', 's', 'q', 'l', 'D', 'n', 's'] :
      List Char) = ['r', 'e', 'g', 'i', 'o', 'n', 's', '.'] ++ ['1'] ++
        ['.', 's', 'q', 'l', 'D', 'n', 's'] := rfl
  rw [h2] at this
  have := List.append_cancel_left (List.append_cancel_right this)
  exact String.ext this

theorem GoMap_get_set_self (m : GoMap) (k v : String) : (m.set k v).get k = v := by
  induction m with
  | nil => simp [GoMap.set, GoMap.get, List.lookup]
  | cons p m ih =>
    obtain ⟨k', v'⟩ := p
    unfold GoMap.set
    by_cases h : k' = k
    · simp [h, GoMap.get, List.lookup]
    · have h' : (k == k') = false := by simpa using fun e => h e.symm
      simp only [h, if_false, GoMap.get, List.lookup, h'] at ih ⊢
      exact ih

theorem GoMap_get_set_of_ne (m : GoMap) (k k' v : String) (hne : k ≠ k') :
    (m.set k v).get k' = m.get k' := by
  induction m with
  | nil =>
    have h' : (k' == k) = false := by simpa using fun e => hne e.symm
    simp [GoMap.set, GoMap.get, List.lookup, h']
  | cons p m ih =>
    obtain ⟨k0, v0⟩ := p
    unfold GoMap.set
    by_cases h : k0 = k
    · subst h
      have h' : (k' == k0) = false := by simpa using fun e => hne e.symm
      simp [GoMap.get, List.lookup, h']
    · simp only [h, if_false, GoMap.get, List.lookup] at ih ⊢
      cases hk : k' == k0 with
      | true => rfl
      | false => exact ih

namespace controllers
open crdb
variable {σ : Type}

/-- The loop over the regions in `discoverClusters` leaves alone every key that is not
one of the region keys it writes. -/
theorem regions_fold_get (k : String) (regions : List Region) (start : Nat) (data : GoMap)
    (hname : ∀ i, start ≤ i → "regions." ++ toString (i + 1) ++ ".name" ≠ k)
    (hdns : ∀ i, start ≤ i → "regions." ++ toString (i + 1) ++ ".sqlDns" ≠ k) :
    ((regions.enumFrom start).foldl
      (fun (data : GoMap) (ir : Nat × Region) =>
        let data := data.set ("regions." ++ toString (ir.1 + 1) ++ ".name") ir.2.Name
        data.set ("regions." ++ toString (ir.1 + 1) ++ ".sqlDns") ir.2.SqlDns)
      data).get k = data.get k := by
  induction regions generalizing start data with
  | nil => rfl
  | cons r rest ih =>
    simp only [List.enumFrom, List.foldl]
    rw [ih (start + 1) _ (fun i hi => hname i (by omega)) (fun i hi => hdns i (by omega))]
    rw [GoMap_get_set_of_ne _ _ _ _ (hdns start (le_refl _)),
      GoMap_get_set_of_ne _ _ _ _ (hname start (le_refl _))]

/-- The metadata of the Instance of a cluster: the tenant name of the cluster, and the
SQL endpoint of the first region of its details. -/
theorem clusterInstance_info (c : Cluster) (details : ClusterDetails) (region : Region)
    (rest : List Region) (hregions : details.Regions = region :: rest) :
    (clusterInstance c details).InstanceInfo.get "serverless.tenantName" =
      c.Serverless.TenantName ∧
    (clusterInstance c details).InstanceInfo.get "regions.1.sqlDns" = region.SqlDns := by
  unfold clusterInstance
  simp only [hregions, List.enum, List.enumFrom, List.foldl]
  constructor
  · repeat rw [GoMap_get_set_of_ne _ _ _ _ (by decide)]
    rw [regions_fold_get _ _ _ _ (fun i _ => regions_key_ne_tenant _ _)
      (fun i _ => regions_key_ne_tenant _ _)]
    rw [GoMap_get_set_of_ne _ _ _ _ (regions_key_ne_tenant _ _),
      GoMap_get_set_of_ne _ _ _ _ (regions_key_ne_tenant _ _)]
    exact GoMap_get_set_self _ _ _
  · repeat rw [GoMap_get_set_of_ne _ _ _ _ (by decide)]
    rw [regions_fold_get _ _ _ _ (fun i _ => regions_name_ne_dns _)
      (fun i hi heq => by have := regions_dns_eq_first _ heq; omega)]
    exact GoMap_get_set_self _ _ _

end controllers

namespace controllers
open crdb
variable {σ : Type}

/-- The data of the ConfigMap built for the Instance of a cluster with at least one
region. -/
theorem buildConfigMap_clusterInstance (connection : CrdbDBaaSConnection) (c : Cluster)
    (details : ClusterDetails) (region : Region) (rest : List Region)
    (hregions : details.Regions = region :: rest) :
    (buildConfigMap connection (clusterInstance c details)).Data =
      [("type", "postgresql"), ("provider", "CockroachDB Cloud"), ("host", region.SqlDns),
       ("port", "26257"), ("database", "defaultdb"),
       ("options", "sslmode=verify-full&sslrootcert=$HOME/.postgresql/root.crt&options=--cluster=" ++
          c.Serverless.TenantName)] := by
  obtain ⟨h1, h2⟩ := clusterInstance_info c details region rest hregions
  unfold buildConfigMap
  simp only [h1, h2]
  simp [GoMap.ofList, GoMap.set]

/-- When `discoverLoop` succeeds, it has appended, cluster by cluster, the Instance
built from the cluster and from the details that a `GetCluster` call for its ID
returned. -/
theorem discoverLoop_instances (w : World σ) (s : σ) (clusters : List Cluster)
    (acc insts : List Instance) (h : (discoverLoop w s clusters acc).2.1 = .ok insts) :
    ∃ new, insts = acc ++ new ∧
      List.Forall₂ (fun inst c => ∃ details s0 s1,
        w.service.GetCluster s0 c.ID = (s1, .ok details) ∧ inst = clusterInstance c details)
        new clusters := by
  induction clusters generalizing s acc with
  | nil =>
    simp only [discoverLoop, Except.ok.injEq] at h
    exact ⟨[], by simp [h], List.Forall₂.nil⟩
  | cons c cs ih =>
    unfold discoverLoop at h
    rcases hg : w.service.GetCluster s c.ID with ⟨s1, err | d⟩
    · simp [hg] at h
    · simp only [hg] at h
      obtain ⟨new, hnew, hall⟩ := ih s1 (acc ++ [clusterInstance c d]) h
      exact ⟨clusterInstance c d :: new, by simp [hnew],
        List.Forall₂.cons ⟨d, s, s1, hg, rfl⟩ hall⟩

/-- C11. ConfigMap contents: when `discoverClusters` succeeds, its Instances correspond
one to one to the listed clusters, and for every cluster whose details, as `GetCluster`
returned them, have at least one region, the ConfigMap that `buildConfigMap` builds from
the cluster's Instance has exactly the six data entries `type = postgresql`,
`provider = CockroachDB Cloud`, `host` = the `sqlDns` of the first region, `port = 26257`,
`database = defaultdb` and `options` = the fixed option string followed by the
serverless tenant name of the cluster. -/
theorem discovered_instance_configMap (w : World σ) (service : σ) (insts : List Instance)
    (hdisc : (discoverClusters w service).2.1 = .ok insts) :
    ∃ s1 clusters, w.service.ListClusters service = (s1, .ok clusters) ∧
      List.Forall₂ (fun inst c => ∃ details s0 s2,
        w.service.GetCluster s0 c.ID = (s2, .ok details) ∧
        ∀ connection region rest, details.Regions = region :: rest →
          (buildConfigMap connection inst).Data =
            [("type", "postgresql"), ("provider", "CockroachDB Cloud"),
             ("host", region.SqlDns), ("port", "26257"), ("database", "defaultdb"),
             ("options",
              "sslmode=verify-full&sslrootcert=$HOME/.postgresql/root.crt&options=--cluster=" ++
                c.Serverless.TenantName)])
        insts clusters := by
  unfold discoverClusters at hdisc
  rcases hl : w.service.ListClusters service with ⟨s1, err | clusters⟩
  · simp [hl] at hdisc
  · simp only [hl] at hdisc
    obtain ⟨new, hnew, hall⟩ := discoverLoop_instances w s1 clusters [] insts hdisc
    simp only [List.nil_append] at hnew
    subst hnew
    refine ⟨s1, clusters, rfl, ?_⟩
    refine List.Forall₂.imp ?_ hall
    rintro inst c ⟨details, s0, s2, hg, rfl⟩
    exact ⟨details, s0, s2, hg, fun connection region rest hr =>
      buildConfigMap_clusterInstance connection c details region rest hr⟩

/-- Witness for C11: the two clusters of Scenario A, each with the one region whose SQL
endpoint is `db.example`. -/
theorem discovered_instance_configMap_witness :
    ∃ s1 clusters, scenario.staleInventoryWorld.service.ListClusters () = (s1, .ok clusters) ∧
      List.Forall₂ (fun inst c => ∃ details s0 s2,
        scenario.staleInventoryWorld.service.GetCluster s0 c.ID = (s2, .ok details) ∧
        ∀ connection region rest, details.Regions = region :: rest →
          (buildConfigMap connection inst).Data =
            [("type", "postgresql"), ("provider", "CockroachDB Cloud"),
             ("host", region.SqlDns), ("port", "26257"), ("database", "defaultdb"),
             ("options",
              "sslmode=verify-full&sslrootcert=$HOME/.postgresql/root.crt&options=--cluster=" ++
                c.Serverless.TenantName)])
        scenario.syncedInventory.Status.Instances clusters :=
  discovered_instance_configMap scenario.staleInventoryWorld ()
    scenario.syncedInventory.Status.Instances rfl

end controllers

/-! ## Credential resolution -/

namespace controllers
open crdb
variable {σ : Type}

/-- The index expression of a Go map gives the empty string exactly when the key is
absent or holds the empty string. -/
theorem GoMap_get_eq_empty_iff (m : GoMap) (k : String) :
    m.get k = "" ↔ m.lookup k = none ∨ m.lookup k = some "" := by
  unfold GoMap.get
  cases h : List.lookup k m with
  | none => simp
  | some v => simp

/-- C12. Credential resolution. When the secret is found, `retrieveClientCredential`
fails exactly when the `orgId` entry or the `apiKey` entry of its data is absent or
empty; when it succeeds, the Credential it returns holds the values of these two
entries, and it does succeed when both entries are present and not empty. When the
secret cannot be fetched, it fails with the error of the fetch, so without a
credential. -/
theorem retrieveClientCredential_resolves_secret (w : World σ) (selector : NamespacedName) :
    (∀ secret, w.GetSecret selector = .ok secret →
      ((∃ err, (retrieveClientCredential w selector).1 = .error err) ↔
        ((secret.Data.lookup "orgId" = none ∨ secret.Data.lookup "orgId" = some "") ∨
         (secret.Data.lookup "apiKey" = none ∨ secret.Data.lookup "apiKey" = some ""))) ∧
      (∀ cred, (retrieveClientCredential w selector).1 = .ok cred →
        secret.Data.lookup "orgId" = some cred.OrgID ∧
        secret.Data.lookup "apiKey" = some cred.APIKey) ∧
      (∀ orgId apiKey, secret.Data.lookup "orgId" = some orgId →
        secret.Data.lookup "apiKey" = some apiKey → orgId ≠ "" → apiKey ≠ "" →
        (retrieveClientCredential w selector).1 = .ok { OrgID := orgId, APIKey := apiKey })) ∧
    (∀ err, w.GetSecret selector = .error err →
      (retrieveClientCredential w selector).1 = .error err) := by
  constructor
  · intro secret hget
    have hres : (retrieveClientCredential w selector).1 =
        if secret.Data.get "orgId" = "" ∨ secret.Data.get "apiKey" = "" then
          .error (errorsNew "failed to retrieve a complete API Credential")
        else .ok { OrgID := secret.Data.get "orgId", APIKey := secret.Data.get "apiKey" } := by
      unfold retrieveClientCredential
      simp only [hget]
      split_ifs <;> rfl
    rw [hres]
    refine ⟨?_, ?_, ?_⟩
    · rw [← GoMap_get_eq_empty_iff, ← GoMap_get_eq_empty_iff]
      split_ifs with h
      · simp [h]
      · simp [h]
    · intro cred hc
      split_ifs at hc with h
      simp only [Except.ok.injEq] at hc
      subst hc
      simp only [not_or, GoMap_get_eq_empty_iff] at h
      simp only [GoMap.get]
      constructor
      · cases h1 : List.lookup "orgId" secret.Data with
        | none => exact absurd h1 h.1.1
        | some v => rfl
      · cases h2 : List.lookup "apiKey" secret.Data with
        | none => exact absurd h2 h.2.1
        | some v => rfl
    · intro orgId apiKey h1 h2 hne1 hne2
      have g1 : secret.Data.get "orgId" = orgId := by simp [GoMap.get, h1]
      have g2 : secret.Data.get "apiKey" = apiKey := by simp [GoMap.get, h2]
      rw [g1, g2]
      simp [hne1, hne2]
  · intro err hget
    unfold retrieveClientCredential
    simp only [hget]

/-- Witness for C12: the credential secret of the scenarios is complete. -/
theorem retrieveClientCredential_resolves_secret_witness :
    (retrieveClientCredential scenario.successWorld ⟨"ns", "cred"⟩).1 =
      .ok { OrgID := "org1", APIKey := "key1" } :=
  ((retrieveClientCredential_resolves_secret scenario.successWorld ⟨"ns", "cred"⟩).1
    scenario.credentialSecret rfl).2.2 "org1" "key1" rfl rfl (by decide) (by decide)

end controllers

/-! ## Failures of lookups and of the discovery -/

namespace controllers
open crdb
variable {σ : Type}

/-- When `discoverLoop` succeeds, none of its `GetCluster` calls failed. -/
theorem discoverLoop_ok_no_failure (w : World σ) (s : σ) (clusters : List Cluster)
    (acc insts : List Instance) (h : (discoverLoop w s clusters acc).2.1 = .ok insts) :
    ∀ id, Event.getCluster id false ∉ (discoverLoop w s clusters acc).2.2 := by
  induction clusters generalizing s acc with
  | nil => simp [discoverLoop]
  | cons c cs ih =>
    unfold discoverLoop at h ⊢
    rcases hg : w.service.GetCluster s c.ID with ⟨s1, err | d⟩
    · simp [hg] at h
    · simp only [hg] at h ⊢
      intro id hm
      simp only [List.mem_cons, Event.getCluster.injEq, Bool.false_eq_true, and_false,
        false_or] at hm
      exact ih s1 _ h id hm

/-- When `discoverClusters` succeeds, neither `ListClusters` nor a `GetCluster` call
failed. -/
theorem discoverClusters_ok_no_failure (w : World σ) (s : σ) (insts : List Instance)
    (h : (discoverClusters w s).2.1 = .ok insts) :
    Event.listClusters false ∉ (discoverClusters w s).2.2 ∧
    ∀ id, Event.getCluster id false ∉ (discoverClusters w s).2.2 := by
  unfold discoverClusters at h ⊢
  rcases hl : w.service.ListClusters s with ⟨s1, err | clusters⟩
  · simp [hl] at h
  · simp only [hl] at h ⊢
    have hloop := discoverLoop_ok_no_failure w s1 clusters [] insts h
    have hlist : Event.listClusters false ∉ (discoverLoop w s1 clusters []).2.2 := fun hm => by
      obtain ⟨id, ok, he⟩ := discoverLoop_trace w s1 clusters [] _ hm
      cases he
    constructor
    · intro hm
      simp only [List.mem_cons, Event.listClusters.injEq, Bool.false_eq_true, false_or] at hm
      exact hlist hm
    · intro id hm
      simp only [List.mem_cons, reduceCtorEq, false_or] at hm
      exact hloop id hm

/-- C13. The Inventory `Reconcile` is atomic on API failure: in a run in which
`ListClusters` fails or a `GetCluster` call fails, also after earlier clusters were
fetched, no status update is issued, so nothing stored changes, and `Reconcile` returns
`RequeueAfter` of 10 seconds and no error. -/
theorem inventory_api_failure_issues_no_update (w : World σ) (cached : Option σ)
    (req : NamespacedName)
    (hfail : Event.listClusters false ∈
        (CrdbDBaaSInventoryReconciler.Reconcile w cached req).trace ∨
      ∃ id, Event.getCluster id false ∈
        (CrdbDBaaSInventoryReconciler.Reconcile w cached req).trace) :
    (∀ e ∈ (CrdbDBaaSInventoryReconciler.Reconcile w cached req).trace,
      e.isStatusUpdate = false) ∧
    (CrdbDBaaSInventoryReconciler.Reconcile w cached req).result =
      { Requeue := false, RequeueAfter := 10 * 1000000000 } ∧
    (CrdbDBaaSInventoryReconciler.Reconcile w cached req).err = none := by
  rcases inventory_reconcile_cases w cached req with hpre | ⟨inventory, service, t, -, ht, hrun⟩
  · exfalso
    rcases hfail with h | ⟨id, h⟩
    · have := hpre _ h
      simp [Event.isLookup] at this
    · have := hpre _ h
      simp [Event.isLookup] at this
  rw [hrun] at hfail ⊢
  have htl : Event.listClusters false ∉ t := fun hm => by
    have := ht _ hm
    simp [Event.isLookup] at this
  have htg : ∀ id, Event.getCluster id false ∉ t := fun id hm => by
    have := ht _ hm
    simp [Event.isLookup] at this
  have hts : ∀ e ∈ t, e.isStatusUpdate = false := fun e he => by
    have := ht e he
    cases e <;> simp_all [Event.isLookup, Event.isStatusUpdate]
  rcases sync_cases w inventory service t with ⟨err, -, h⟩ | ⟨insts, o, ok, hd, -, -, -, -, h⟩
  · rw [h]
    refine ⟨?_, by simp [DefaultRetryDelay], rfl⟩
    intro e he
    simp only [List.mem_append] at he
    rcases he with he | he
    · exact hts e he
    · exact (discoverClusters_trace w service e he).2
  · exfalso
    obtain ⟨hnl, hng⟩ := discoverClusters_ok_no_failure w service insts hd
    rw [h] at hfail
    simp only [List.mem_append, List.mem_singleton, reduceCtorEq, or_false, htl, htg, hnl, hng,
      false_or, exists_false] at hfail

/-- Witness for C13: `GetCluster` fails for the second cluster after the first was
fetched. -/
theorem inventory_api_failure_issues_no_update_witness :
    (CrdbDBaaSInventoryReconciler.Reconcile scenario.secondClusterFailsWorld none
        scenario.inventoryKey).trace =
      [.getInventory scenario.inventoryKey true, .getSecret ⟨"ns", "cred"⟩ true,
       .listClusters true, .getCluster "c1" true, .getCluster "c2" false] ∧
    (∀ e ∈ (CrdbDBaaSInventoryReconciler.Reconcile scenario.secondClusterFailsWorld none
        scenario.inventoryKey).trace, e.isStatusUpdate = false) ∧
    (CrdbDBaaSInventoryReconciler.Reconcile scenario.secondClusterFailsWorld none
        scenario.inventoryKey).result = { Requeue := false, RequeueAfter := 10 * 1000000000 } ∧
    (CrdbDBaaSInventoryReconciler.Reconcile scenario.secondClusterFailsWorld none
        scenario.inventoryKey).err = none :=
  ⟨by decide,
    inventory_api_failure_issues_no_update scenario.secondClusterFailsWorld none
      scenario.inventoryKey (Or.inr ⟨"c2", by decide⟩)⟩

/-- C14. A request whose Connection is not found: `Reconcile` makes no call after the
failed fetch and returns no error, but the result it returns has `Requeue = true`, so it
does ask for a requeue. -/
theorem connection_not_found_requests_requeue (w : World σ) (cached : Option σ)
    (req : NamespacedName) (err : GoError)
    (hget : w.GetConnection req = .error err) (hnf : err.notFound = true) :
    (CrdbDBaaSConnectionReconciler.Reconcile w cached req).trace = [.getConnection req false] ∧
    (CrdbDBaaSConnectionReconciler.Reconcile w cached req).err = none ∧
    (CrdbDBaaSConnectionReconciler.Reconcile w cached req).result =
      { Requeue := true, RequeueAfter := 0 } := by
  unfold CrdbDBaaSConnectionReconciler.Reconcile
  simp [hget, hnf]

/-- Witness for C14: the Connection of the request has been deleted. -/
theorem connection_not_found_requests_requeue_witness :
    (CrdbDBaaSConnectionReconciler.Reconcile scenario.deletedConnectionWorld none
        scenario.req).trace = [.getConnection scenario.req false] ∧
    (CrdbDBaaSConnectionReconciler.Reconcile scenario.deletedConnectionWorld none
        scenario.req).err = none ∧
    (CrdbDBaaSConnectionReconciler.Reconcile scenario.deletedConnectionWorld none
        scenario.req).result = { Requeue := true, RequeueAfter := 0 } :=
  connection_not_found_requests_requeue scenario.deletedConnectionWorld none scenario.req
    scenario.notFoundError rfl rfl

/-- C15. A not yet Ready Connection whose Inventory is not found: `Reconcile` returns
`RequeueAfter` of 10 seconds, but together with the error of the fetch, not with a nil
error. -/
theorem missing_inventory_returns_the_error (w : World σ) (cached : Option σ)
    (req : NamespacedName) (connection : CrdbDBaaSConnection) (err : GoError)
    (hget : w.GetConnection req = .ok connection)
    (hnot : ¬ ∃ cond ∈ connection.Status.Conditions,
      cond.Type_ = "ReadyForBinding" ∧ cond.Status = "True")
    (hinv : w.GetInventory ⟨connection.Spec.InventoryRef.Namespace,
      connection.Spec.InventoryRef.Name⟩ = .error err)
    (hnf : err.notFound = true) :
    (CrdbDBaaSConnectionReconciler.Reconcile w cached req).result =
      { Requeue := false, RequeueAfter := 10 * 1000000000 } ∧
    (CrdbDBaaSConnectionReconciler.Reconcile w cached req).err = some err := by
  have hany : connection.Status.Conditions.any (fun cond =>
      cond.Type_ == ConnectionConditionReadyType && cond.Status == ConditionTrue) = false := by
    rw [Bool.eq_false_iff]
    intro h
    exact hnot ((hasCondition_iff _ _ _).1 h)
  unfold CrdbDBaaSConnectionReconciler.Reconcile
  simp [hget, hany, hinv, hnf, DefaultRetryDelay]

/-- Witness for C15: the Inventory that the Connection references does not exist. -/
theorem missing_inventory_returns_the_error_witness :
    (CrdbDBaaSConnectionReconciler.Reconcile scenario.missingInventoryWorld none
        scenario.req).result = { Requeue := false, RequeueAfter := 10 * 1000000000 } ∧
    (CrdbDBaaSConnectionReconciler.Reconcile scenario.missingInventoryWorld none
        scenario.req).err = some scenario.notFoundError :=
  missing_inventory_returns_the_error scenario.missingInventoryWorld none scenario.req
    (scenario.connection []) scenario.notFoundError rfl (by simp [scenario.connection]) rfl rfl

end controllers

/-! ## Aggregation of transport errors -/

namespace crdb

/-- A character other than `%` is printed as it is. -/
theorem fmtFragment_cons_ne (c : Char) (tl : List Char) (operand : Option String)
    (hc : c ≠ '%') :
    fmtFragment (c :: tl) operand = (fmtFragment tl operand).map (c :: ·) := by
  cases tl with
  | nil => simp [fmtFragment, hc]
  | cons v rest => simp [fmtFragment, hc]

/-- Text without `%` is printed as it is, in front of what the rest of the format
prints. -/
theorem fmtFragment_plain (pre rest : List Char) (operand : Option String)
    (hpre : '%' ∉ pre) :
    fmtFragment (pre ++ rest) operand = (fmtFragment rest operand).map (pre ++ ·) := by
  induction pre with
  | nil => simp
  | cons c tl ih =>
    have hc : c ≠ '%' := fun h => hpre (by simp [h])
    have htl : '%' ∉ tl := fun h => hpre (by simp [h])
    rw [List.cons_append, fmtFragment_cons_ne _ _ _ hc, ih htl]
    cases fmtFragment rest operand <;> simp

/-- The format that `wrapErrors` builds from an accumulated message without `%` prints
that message, a space and the message of the operand. -/
theorem fmtFragment_wrap (pre : List Char) (m : String) (hpre : '%' ∉ pre) :
    fmtFragment (pre ++ [' ', '%', 'w']) (some m) = some (pre ++ ' ' :: m.data) := by
  rw [fmtFragment_plain _ _ _ hpre]
  simp [fmtFragment]

/-- Appending strings from the left, started from `a`, gives `a` in front of what it
gives started from the empty string. -/
theorem foldl_append_start (a : String) (xs : List String) :
    xs.foldl (fun r s => r ++ s) a = a ++ xs.foldl (fun r s => r ++ s) "" := by
  induction xs generalizing a with
  | nil => simp
  | cons x xs ih =>
    rw [List.foldl_cons, List.foldl_cons, ih (a ++ x), ih ("" ++ x)]
    simp [String.append_assoc]

/-- The function `String.join` on a list with a first element. -/
theorem join_cons (x : String) (xs : List String) :
    String.join (x :: xs) = x ++ String.join xs := by
  unfold String.join
  rw [List.foldl_cons, foldl_append_start]
  simp

/-- The loop of `wrapErrors`, started from an accumulated error without `%` in its
message, on errors without `%` in their messages. -/
theorem wrapErrors_loop_plain (Errorf : String → GoError → GoError)
    (hfmt : AgreesWithErrorf Errorf) (errs : List GoError) (allErrs : GoError)
    (hacc : '%' ∉ allErrs.msg.data) (hplain : ∀ e ∈ errs, '%' ∉ e.msg.data) :
    (errs.foldl (fun allErrs e => Errorf (allErrs.msg ++ " %w") e) allErrs).msg =
      allErrs.msg ++ String.join (errs.map (fun e => " " ++ e.msg)) := by
  induction errs generalizing allErrs with
  | nil => simp [String.join]
  | cons e es ih =>
    have he : '%' ∉ e.msg.data := hplain e (by simp)
    have hstep : (Errorf (allErrs.msg ++ " %w") e).msg = allErrs.msg ++ (" " ++ e.msg) := by
      rw [hfmt (allErrs.msg ++ " %w") e (allErrs.msg.data ++ ' ' :: e.msg.data)
        (by simpa using fmtFragment_wrap allErrs.msg.data e.msg hacc)]
      apply String.ext
      simp
    have hacc2 : '%' ∉ (Errorf (allErrs.msg ++ " %w") e).msg.data := by
      rw [hstep]
      simp [hacc, he]
    rw [List.foldl_cons, ih _ hacc2 (fun e2 h2 => hplain e2 (by simp [h2])), hstep,
      List.map_cons, join_cons]
    simp [String.append_assoc]

/-- C16. Transport error aggregation. With `fmt.Errorf` as `fmtFragment` describes it,
`wrapErrors` on the two transport errors `dial %s failed` and `tls handshake` returns an
error with the message ` dial tls handshake failed %!w(MISSING)`, which does not contain
the message of the first error: the accumulated message is the format string of the next
`Errorf` call, so its `%s` consumes the second error. On every list of errors whose
messages contain no `%`, the message of the result is the messages of the errors in
list order, each preceded by a space. -/
theorem wrapErrors_message_is_format (Errorf : String → GoError → GoError)
    (hfmt : AgreesWithErrorf Errorf) :
    (wrapErrors Errorf scenario.transportErrors).msg =
      " dial tls handshake failed %!w(MISSING)" ∧
    ¬ List.IsInfix "dial %s failed".data (wrapErrors Errorf scenario.transportErrors).msg.data ∧
    ∀ errs : List GoError, (∀ e ∈ errs, '%' ∉ e.msg.data) →
      (wrapErrors Errorf errs).msg = String.join (errs.map (fun e => " " ++ e.msg)) := by
  have h1 : (Errorf " %w" (errorsNew "dial %s failed")).msg = " dial %s failed" :=
    hfmt " %w" (errorsNew "dial %s failed") " dial %s failed".data (by decide)
  have h2 : (Errorf " dial %s failed %w" (errorsNew "tls handshake")).msg =
      " dial tls handshake failed %!w(MISSING)" :=
    hfmt " dial %s failed %w" (errorsNew "tls handshake")
      " dial tls handshake failed %!w(MISSING)".data (by decide)
  have hmsg : (wrapErrors Errorf scenario.transportErrors).msg =
      " dial tls handshake failed %!w(MISSING)" := by
    have e1 : (errorsNew "").msg ++ " %w" = " %w" := by decide
    have e2 : " dial %s failed" ++ " %w" = " dial %s failed %w" := by decide
    simp only [wrapErrors, scenario.transportErrors, List.foldl_cons, List.foldl_nil, e1, h1,
      e2, h2]
  refine ⟨hmsg, ?_, ?_⟩
  · rw [hmsg]
    decide
  · intro errs hplain
    have h := wrapErrors_loop_plain Errorf hfmt errs (errorsNew "") (by decide) hplain
    simpa [wrapErrors, errorsNew] using h

/-- Witness for C16: the formatter `scenario.fragmentErrorf` agrees with `fmt.Errorf` on
the fragment, and with it the first message is lost from the aggregate. -/
theorem wrapErrors_message_is_format_witness :
    AgreesWithErrorf scenario.fragmentErrorf ∧
    (wrapErrors scenario.fragmentErrorf scenario.transportErrors).msg =
      " dial tls handshake failed %!w(MISSING)" ∧
    (wrapErrors scenario.fragmentErrorf [errorsNew "dns", errorsNew "tls"]).msg = " dns tls" :=
  ⟨fun format e out h => by simp [scenario.fragmentErrorf, h],
   (wrapErrors_message_is_format scenario.fragmentErrorf
      (fun format e out h => by simp [scenario.fragmentErrorf, h])).1,
   (wrapErrors_message_is_format scenario.fragmentErrorf
      (fun format e out h => by simp [scenario.fragmentErrorf, h])).2.2
      [errorsNew "dns", errorsNew "tls"] (by decide)⟩

end crdb
